import Mathlib

/-! Ximea ROS 2 camera driver: acquisition lifecycle and configuration engine.

A shallow embedding of `src/ximea_ros2_cam/src/ximea_ros2_cam.cpp`.

* C++ `int` values are `Int`. The sums of the ROI check are taken exactly (for
  the bounds of the capability table, 2048 and 1088, they cannot leave the
  32-bit range). The sums and differences of the transport buffer sizing wrap
  around to 32 bits (`wrapInt32`); signed overflow is undefined in C++, so the
  theorems about these values assume that no overflow occurs, and the
  `Checked` variants of the computations report every undefined operation.
* `float` and `double` values are finite binary floating-point numbers
  `m * 2^e` (`Flt`) with round-to-nearest-even to 24 and 53 significant bits;
  a conversion to `int` is defined only for a value within the 32-bit range
  (`Flt.toInt32`).
* The vendor SDK (`xiApi.h`) is not part of the sources: its constants are the
  fields of `XiApi`, and the answers of its functions are given by a `Backend`.
* The object state is passed explicitly (`State`); every SDK call is appended
  to `State.calls` together with the status it returned.
-/

namespace XimeaROSCam

/-! ## Floating point -/

/-- A finite binary floating-point value `m * 2^e`. -/
structure Flt where
  m : Int
  e : Int
deriving DecidableEq, Repr

/-- The rational number denoted by a floating-point value. -/
def Flt.toRat (x : Flt) : ℚ := (x.m : ℚ) * (2 : ℚ) ^ x.e

/-- Round the quotient `num / den` to the nearest natural number, ties to even. -/
def roundHalfEven (num den : Nat) : Nat :=
  let q := num / den
  let r := num % den
  if 2 * r < den then q
  else if den < 2 * r then q + 1
  else if q % 2 = 0 then q else q + 1

/-- The digits of `n` in base 2 counted with `fuel` halvings. -/
def bitLengthAux : Nat → Nat → Nat
  | 0, _ => 0
  | fuel + 1, n => if n = 0 then 0 else bitLengthAux fuel (n / 2) + 1

/-- The number of binary digits of `n`: the least `k` with `n < 2^k`. -/
def bitLength (n : Nat) : Nat := bitLengthAux n n

/-- Round the quotient `num / den` to `p` significant bits: the result is the
pair `(mant, sh)` standing for `mant * 2^sh`, where `sh` is the number of low
bits of the integer quotient that are dropped. -/
def roundQuot (p num den : Nat) : Nat × Nat :=
  let sh := bitLength (num / den) - p
  (roundHalfEven num (den * 2 ^ sh), sh)

/-- Round a floating-point value with an arbitrary integer significand to `p`
significant bits (exponent range unbounded). -/
def Flt.round (p : Nat) (x : Flt) : Flt :=
  let r := roundQuot p x.m.natAbs 1
  ⟨x.m.sign * r.1, x.e + r.2⟩

/-- Conversion of an integer to a `p`-bit float: `(float)n`, `(double)n`. -/
def Flt.ofInt (p : Nat) (n : Int) : Flt := Flt.round p ⟨n, 0⟩

/-- Product of two floats, rounded to `p` bits. -/
def Flt.mul (p : Nat) (x y : Flt) : Flt := Flt.round p ⟨x.m * y.m, x.e + y.e⟩

/-- Quotient of two floats (`y ≠ 0`), rounded to `p` bits: the numerator is
scaled by `2^k`, `k = p + bitLength |y.m|`, so that the integer quotient carries at
least `p` bits before it is rounded. -/
def Flt.div (p : Nat) (x y : Flt) : Flt :=
  let k := p + bitLength y.m.natAbs
  let r := roundQuot p (x.m.natAbs * 2 ^ k) y.m.natAbs
  ⟨x.m.sign * y.m.sign * r.1, x.e - y.e - k + r.2⟩

/-- Conversion of a float to `int`, truncating toward zero: `(int)x`. -/
def Flt.toInt (x : Flt) : Int :=
  if 0 ≤ x.e then x.m * 2 ^ x.e.toNat else x.m.tdiv (2 ^ (-x.e).toNat)

/-- Conversion of a float to a 32-bit `int`, `(int)x`: the truncated value when
it is within the range of `int`. Out of range the conversion is undefined in
C++; the model takes the value the x86 conversion instruction delivers then,
`INT_MIN`. -/
def Flt.toInt32 (x : Flt) : Int :=
  if -2147483648 ≤ x.toInt ∧ x.toInt < 2147483648 then x.toInt else -2147483648

/-- The 32-bit `int` that two's complement arithmetic delivers for the exact
result `x` of a sum or difference: `x` itself when it is within the range of
`int`, and `x` reduced modulo `2^32` into that range when the operation
overflows (undefined in C++). -/
def wrapInt32 (x : Int) : Int := (x + 2147483648) % 4294967296 - 2147483648

/-! ## The SDK surface -/

/-- Constants of the vendor header `xiApi.h` used by the driver. -/
structure XiApi where
  XI_OK : Int
  XI_ON : Int
  XI_MONO8 : Int
  XI_MONO16 : Int
  XI_RGB24 : Int
  XI_RGB32 : Int
  XI_RGB_PLANAR : Int
  XI_RAW8 : Int
  XI_RAW16 : Int
  XI_TRG_OFF : Int
  XI_TRG_EDGE_RISING : Int
  XI_TRG_EDGE_FALLING : Int
  XI_TRG_SOFTWARE : Int
  XI_GPI_TRIGGER : Int
  XI_ACQ_TIMING_MODE_FREE_RUN : Int
  XI_ACQ_TIMING_MODE_FRAME_RATE : Int

/-- The values the constants have in the vendor header. -/
def xiApiValues : XiApi where
  XI_OK := 0
  XI_ON := 1
  XI_MONO8 := 0
  XI_MONO16 := 1
  XI_RGB24 := 2
  XI_RGB32 := 3
  XI_RGB_PLANAR := 4
  XI_RAW8 := 5
  XI_RAW16 := 6
  XI_TRG_OFF := 0
  XI_TRG_EDGE_RISING := 1
  XI_TRG_EDGE_FALLING := 2
  XI_TRG_SOFTWARE := 3
  XI_GPI_TRIGGER := 1
  XI_ACQ_TIMING_MODE_FREE_RUN := 0
  XI_ACQ_TIMING_MODE_FRAME_RATE := 1

/-- The SDK parameters the driver reads or writes. A name followed by an info
modifier in the source (`XI_PRM_FRAMERATE XI_PRM_INFO_MIN`) is one parameter. -/
inductive Param
  | XI_PRM_AUTO_BANDWIDTH_CALCULATION
  | XI_PRM_IMAGE_DATA_FORMAT
  | XI_PRM_AUTO_WB
  | XI_PRM_WB_KR
  | XI_PRM_WB_KG
  | XI_PRM_WB_KB
  | XI_PRM_TRG_SOURCE
  | XI_PRM_GPI_SELECTOR
  | XI_PRM_GPI_MODE
  | XI_PRM_AEAG
  | XI_PRM_EXPOSURE
  | XI_PRM_GAIN
  | XI_PRM_EXP_PRIORITY
  | XI_PRM_AE_MAX_LIMIT
  | XI_PRM_AG_MAX_LIMIT
  | XI_PRM_WIDTH
  | XI_PRM_HEIGHT
  | XI_PRM_OFFSET_X
  | XI_PRM_OFFSET_Y
  | XI_PRM_AVAILABLE_BANDWIDTH
  | XI_PRM_LIMIT_BANDWIDTH
  | XI_PRM_LIMIT_BANDWIDTH_MODE
  | XI_PRM_FRAMERATE_INFO_MIN
  | XI_PRM_FRAMERATE_INFO_MAX
  | XI_PRM_ACQ_TIMING_MODE
  | XI_PRM_FRAMERATE
  | XI_PRM_BUFFERS_QUEUE_SIZE_INFO_MAX
  | XI_PRM_BUFFERS_QUEUE_SIZE
  | XI_PRM_IMAGE_PAYLOAD_SIZE
  | XI_PRM_ACQ_TRANSPORT_BUFFER_SIZE
  | XI_PRM_ACQ_TRANSPORT_BUFFER_SIZE_INFO_INCREMENT
  | XI_PRM_ACQ_TRANSPORT_BUFFER_SIZE_INFO_MIN
deriving DecidableEq, Repr

/-- A call of an SDK function; `h` is the device handle passed (0 is `NULL`). -/
inductive Call
  | xiOpenDeviceBy (serial : String)
  | xiSetParamInt (h : Nat) (prm : Param) (val : Int)
  | xiSetParamFloat (h : Nat) (prm : Param) (val : Flt)
  | xiGetParamInt (h : Nat) (prm : Param)
  | xiGetParamFloat (h : Nat) (prm : Param)
  | xiStartAcquisition (h : Nat)
  | xiStopAcquisition (h : Nat)
  | xiCloseDevice (h : Nat)
  | xiGetImage (h : Nat) (timeout : Int)
deriving DecidableEq, Repr

/-- The answers of the device backend to the parameter and start calls: the
status each call returns and, for a read, the value stored through the output
pointer (`none` when the backend leaves the variable untouched). -/
structure Backend where
  setParamInt : Nat → Param → Int → Int
  setParamFloat : Nat → Param → Flt → Int
  getParamInt : Nat → Param → Int × Option Int
  getParamFloat : Nat → Param → Int × Option Flt
  startAcquisition : Nat → Int

/-! ## Configuration -/

/-- Value of `m[k]` for a `std::map`: the mapped value, or the value-initialised
default that `operator[]` inserts for a missing key. -/
def mapIndex {κ ν : Type} [BEq κ] (dflt : ν) (m : List (κ × ν)) (k : κ) : ν :=
  (m.lookup k).getD dflt

/-- The static table `ImgFormatMap`. -/
def ImgFormatMap (K : XiApi) : List (String × Int) :=
  [("XI_MONO8", K.XI_MONO8), ("XI_MONO16", K.XI_MONO16), ("XI_RGB24", K.XI_RGB24),
   ("XI_RGB32", K.XI_RGB32), ("XI_RGB_PLANAR", K.XI_RGB_PLANAR), ("XI_RAW8", K.XI_RAW8),
   ("XI_RAW16", K.XI_RAW16)]

/-- The static table `BytesPerPixelMap`. -/
def BytesPerPixelMap : List (String × Int) :=
  [("XI_MONO8", 1), ("XI_MONO16", 2), ("XI_RGB24", 3), ("XI_RGB32", 4),
   ("XI_RGB_PLANAR", 3), ("XI_RAW8", 1), ("XI_RAW16", 2)]

/-- The static table `ImgEncodingMap`. -/
def ImgEncodingMap : List (String × String) :=
  [("XI_MONO8", "mono8"), ("XI_MONO16", "mono16"), ("XI_RGB24", "bgr8"),
   ("XI_RGB32", "bgra8"), ("XI_RGB_PLANAR", "not_applicable"), ("XI_RAW8", "mono8"),
   ("XI_RAW16", "mono16")]

/-- The static table `CamMaxPixelWidth`. -/
def CamMaxPixelWidth : List (Int × Int) := [(0, 2048)]

/-- The static table `CamMaxPixelHeight`. -/
def CamMaxPixelHeight : List (Int × Int) := [(0, 1088)]

/-- The node parameters read by `initCam`, with the member each is stored in. -/
structure Params where
  cam_name_ : String
  cam_serialno_ : String
  cam_frameid_ : String
  cam_calib_file_ : String
  cam_format_ : String
  cam_num_in_bus_ : Int
  cam_bw_safetyratio_ : Flt
  cam_trigger_mode_ : Int
  cam_hw_trigger_edge_ : Int
  cam_framerate_control_ : Bool
  cam_framerate_set_ : Int
  cam_img_cap_timeout_ : Int
  cam_autoexposure_ : Bool
  cam_manualgain_ : Flt
  cam_exposure_time_ : Int
  cam_autoexposure_priority_ : Flt
  cam_autotime_limit_ : Int
  cam_autogain_limit_ : Flt
  cam_white_balance_mode_ : Int
  cam_white_balance_coef_r_ : Flt
  cam_white_balance_coef_g_ : Flt
  cam_white_balance_coef_b_ : Flt
  cam_roi_left_ : Int
  cam_roi_top_ : Int
  cam_roi_width_ : Int
  cam_roi_height_ : Int

/-- The declared defaults of the node parameters (`declare_parameter`). -/
def Params.declared : Params where
  cam_name_ := "INVALID"
  cam_serialno_ := "INVALID"
  cam_frameid_ := "INVALID"
  cam_calib_file_ := "INVALID"
  cam_format_ := "INVALID"
  cam_num_in_bus_ := -1
  cam_bw_safetyratio_ := ⟨-1, 0⟩
  cam_trigger_mode_ := -1
  cam_hw_trigger_edge_ := -1
  cam_framerate_control_ := false
  cam_framerate_set_ := -1
  cam_img_cap_timeout_ := -1
  cam_autoexposure_ := false
  cam_manualgain_ := ⟨-1, 0⟩
  cam_exposure_time_ := -1
  cam_autoexposure_priority_ := ⟨-1, 0⟩
  cam_autotime_limit_ := -1
  cam_autogain_limit_ := ⟨-1, 0⟩
  cam_white_balance_mode_ := -1
  cam_white_balance_coef_r_ := ⟨-1, 0⟩
  cam_white_balance_coef_g_ := ⟨-1, 0⟩
  cam_white_balance_coef_b_ := ⟨-1, 0⟩
  cam_roi_left_ := -1
  cam_roi_top_ := -1
  cam_roi_width_ := -1
  cam_roi_height_ := -1

/-- The configuration members of the node after `initCam`: the parameters, the
three members derived from the format selector, and the camera model (a member
that this source file never assigns). -/
structure Config extends Params where
  cam_format_int_ : Int
  cam_bytesperpixel_ : Int
  cam_encoding_ : String
  cam_model_ : Int

/-- The configuration part of `initCam`: the parameters are stored and the
format selector is looked up in the three static tables with `operator[]`. -/
def initCam (K : XiApi) (p : Params) (cam_model_ : Int) : Config :=
  { toParams := p
    cam_format_int_ := mapIndex 0 (ImgFormatMap K) p.cam_format_
    cam_bytesperpixel_ := mapIndex 0 BytesPerPixelMap p.cam_format_
    cam_encoding_ := mapIndex "" ImgEncodingMap p.cam_format_
    cam_model_ := cam_model_ }

/-! ## State -/

/-- What `image_resized_pub_.publish` receives on one successful capture. -/
structure Publication where
  /-- Rows of the matrix wrapped around the raw buffer (`xi_img.height`). -/
  mat_rows : Int
  /-- Columns of the matrix wrapped around the raw buffer (`xi_img.width`). -/
  mat_cols : Int
  /-- Bytes per pixel of the matrix type of the wrapper (`CV_8UC3`: 3). -/
  mat_elem_bytes : Int
  /-- Width of the resized image (`Size(640, 512)`). -/
  img_width : Int
  /-- Height of the resized image. -/
  img_height : Int
  encoding : String
  frame_id : String
  stamp : Nat
  info_width : Int
  info_height : Int
deriving DecidableEq, Repr

/-- The mutable members of the node, the two timers, and the log of what the
node did: the SDK calls with their returned statuses, and the publications. -/
structure State where
  is_active_ : Bool
  xi_h_ : Nat
  min_fps_ : Flt
  max_fps_ : Flt
  /-- The attachment poll timer exists (it is destroyed by `reset()`). -/
  xi_open_device_cb_ : Bool
  /-- The frame capture timer exists. -/
  t_frame_cb_ : Bool
  calls : List (Call × Int)
  published : List Publication

/-- A write `xi_stat = xiSetParamInt(h, prm, val)`. -/
def setInt (b : Backend) (s : State) (h : Nat) (prm : Param) (val : Int) : State :=
  { s with calls := s.calls ++ [(Call.xiSetParamInt h prm val, b.setParamInt h prm val)] }

/-- A write `xi_stat = xiSetParamFloat(h, prm, val)`. -/
def setFloat (b : Backend) (s : State) (h : Nat) (prm : Param) (val : Flt) : State :=
  { s with calls := s.calls ++ [(Call.xiSetParamFloat h prm val, b.setParamFloat h prm val)] }

/-- A read `xi_stat = xiGetParamInt(h, prm, &var)`: the new state and the value
of `var` after the call, `var` holding `init` before it. -/
def getInt (b : Backend) (s : State) (h : Nat) (prm : Param) (init : Int) : State × Int :=
  ({ s with calls := s.calls ++ [(Call.xiGetParamInt h prm, (b.getParamInt h prm).1)] },
   ((b.getParamInt h prm).2).getD init)

/-- A read `xi_stat = xiGetParamFloat(h, prm, &var)`. -/
def getFloat (b : Backend) (s : State) (h : Nat) (prm : Param) (init : Flt) : State × Flt :=
  ({ s with calls := s.calls ++ [(Call.xiGetParamFloat h prm, (b.getParamFloat h prm).1)] },
   ((b.getParamFloat h prm).2).getD init)

/-! ## openCam -/

/-- White balance mode (source lines 307-325). -/
def setWhiteBalance (cfg : Config) (b : Backend) (s : State) : State :=
  if cfg.cam_white_balance_mode_ = 2 then
    setInt b s s.xi_h_ .XI_PRM_AUTO_WB 1
  else if cfg.cam_white_balance_mode_ = 1 then
    let s := setInt b s s.xi_h_ .XI_PRM_AUTO_WB 0
    let s := setFloat b s s.xi_h_ .XI_PRM_WB_KR cfg.cam_white_balance_coef_r_
    let s := setFloat b s s.xi_h_ .XI_PRM_WB_KG cfg.cam_white_balance_coef_g_
    setFloat b s s.xi_h_ .XI_PRM_WB_KB cfg.cam_white_balance_coef_b_
  else if cfg.cam_white_balance_mode_ = 0 then
    setInt b s s.xi_h_ .XI_PRM_AUTO_WB 0
  else s

/-- Trigger mode (source lines 328-354). -/
def setTrigger (K : XiApi) (cfg : Config) (b : Backend) (s : State) : State :=
  if cfg.cam_trigger_mode_ = 2 then
    let s :=
      if cfg.cam_hw_trigger_edge_ = 0 then
        setInt b s s.xi_h_ .XI_PRM_TRG_SOURCE K.XI_TRG_EDGE_RISING
      else if cfg.cam_hw_trigger_edge_ = 1 then
        setInt b s s.xi_h_ .XI_PRM_TRG_SOURCE K.XI_TRG_EDGE_FALLING
      else
        setInt b s s.xi_h_ .XI_PRM_TRG_SOURCE K.XI_TRG_EDGE_RISING
    let s := setInt b s s.xi_h_ .XI_PRM_GPI_SELECTOR 1
    setInt b s s.xi_h_ .XI_PRM_GPI_MODE K.XI_GPI_TRIGGER
  else if cfg.cam_trigger_mode_ = 1 then
    setInt b s s.xi_h_ .XI_PRM_TRG_SOURCE K.XI_TRG_SOFTWARE
  else
    setInt b s s.xi_h_ .XI_PRM_TRG_SOURCE K.XI_TRG_OFF

/-- Exposure (source lines 360-397). The `int` member `cam_autotime_limit_` is
converted to `float` by the call of `xiSetParamFloat`. -/
def setExposure (cfg : Config) (b : Backend) (s : State) : State :=
  if !cfg.cam_autoexposure_ then
    let s := setInt b s s.xi_h_ .XI_PRM_AEAG 0
    let s := setInt b s s.xi_h_ .XI_PRM_EXPOSURE cfg.cam_exposure_time_
    setFloat b s s.xi_h_ .XI_PRM_GAIN cfg.cam_manualgain_
  else
    let s := setInt b s s.xi_h_ .XI_PRM_AEAG 1
    let s := setFloat b s s.xi_h_ .XI_PRM_EXP_PRIORITY cfg.cam_autoexposure_priority_
    let s := setFloat b s s.xi_h_ .XI_PRM_AE_MAX_LIMIT (Flt.ofInt 24 cfg.cam_autotime_limit_)
    setFloat b s s.xi_h_ .XI_PRM_AG_MAX_LIMIT cfg.cam_autogain_limit_

/-- The condition of the ROI bounds check (source lines 407-412), true when
`openCam` returns early. The disjuncts are evaluated left to right. -/
def roiOutOfBounds (left top width height max_cam_width max_cam_height : Int) : Bool :=
  decide (left < 0) || decide (left > max_cam_width) ||
  decide (top < 0) || decide (top > max_cam_height) ||
  decide (width < 0) || decide (width > max_cam_width) ||
  decide (height < 0) || decide (height > max_cam_height) ||
  decide (left + width > max_cam_width) ||
  decide (top + height > max_cam_height)

/-- The ROI check of `openCam` on the configured rectangle, against the bounds
looked up for the camera model (source lines 401-412). -/
def roiRejected (cfg : Config) : Bool :=
  roiOutOfBounds cfg.cam_roi_left_ cfg.cam_roi_top_ cfg.cam_roi_width_ cfg.cam_roi_height_
    (mapIndex 0 CamMaxPixelWidth cfg.cam_model_) (mapIndex 0 CamMaxPixelHeight cfg.cam_model_)

/-- The ROI writes (source lines 418-421). -/
def setRoi (cfg : Config) (b : Backend) (s : State) : State :=
  let s := setInt b s s.xi_h_ .XI_PRM_WIDTH cfg.cam_roi_width_
  let s := setInt b s s.xi_h_ .XI_PRM_HEIGHT cfg.cam_roi_height_
  let s := setInt b s s.xi_h_ .XI_PRM_OFFSET_X cfg.cam_roi_left_
  setInt b s s.xi_h_ .XI_PRM_OFFSET_Y cfg.cam_roi_top_

/-- The share of the available bandwidth of one camera (source lines 430-432):
`avail_bw = (int) ((double)avail_bw / (double)cam_num_in_bus_)` when more than
one camera is on the bus. -/
def perCameraBandwidth (cam_num_in_bus_ avail_bw : Int) : Int :=
  if cam_num_in_bus_ > 1 then
    Flt.toInt32 (Flt.div 53 (Flt.ofInt 53 avail_bw) (Flt.ofInt 53 cam_num_in_bus_))
  else avail_bw

/-- The single-precision product `(float)avail_bw * cam_bw_safetyratio_` of
source line 439, truncated toward zero, before it is stored in an `int`. -/
def bandwidthProduct (avail_bw : Int) (cam_bw_safetyratio_ : Flt) : Int :=
  Flt.toInt (Flt.mul 24 (Flt.ofInt 24 avail_bw) cam_bw_safetyratio_)

/-- The bandwidth limit written (source line 439):
`(int)((float)avail_bw * cam_bw_safetyratio_)`. -/
def bandwidthLimit (avail_bw : Int) (cam_bw_safetyratio_ : Flt) : Int :=
  Flt.toInt32 (Flt.mul 24 (Flt.ofInt 24 avail_bw) cam_bw_safetyratio_)

/-- Bandwidth (source lines 425-440). -/
def limitBandwidth (K : XiApi) (cfg : Config) (b : Backend) (s : State) : State :=
  let (s, avail_bw) := getInt b s s.xi_h_ .XI_PRM_AVAILABLE_BANDWIDTH 0
  let avail_bw := perCameraBandwidth cfg.cam_num_in_bus_ avail_bw
  let s := setInt b s s.xi_h_ .XI_PRM_LIMIT_BANDWIDTH (bandwidthLimit avail_bw cfg.cam_bw_safetyratio_)
  setInt b s s.xi_h_ .XI_PRM_LIMIT_BANDWIDTH_MODE K.XI_ON

/-- Frame rate control (source lines 445-471). -/
def setFramerate (K : XiApi) (cfg : Config) (b : Backend) (s : State) : State :=
  let (s, min_fps) := getFloat b s s.xi_h_ .XI_PRM_FRAMERATE_INFO_MIN s.min_fps_
  let s := { s with min_fps_ := min_fps }
  let (s, max_fps) := getFloat b s s.xi_h_ .XI_PRM_FRAMERATE_INFO_MAX s.max_fps_
  let s := { s with max_fps_ := max_fps }
  if cfg.cam_trigger_mode_ = 0 then
    if cfg.cam_framerate_control_ then
      let s := setInt b s s.xi_h_ .XI_PRM_ACQ_TIMING_MODE K.XI_ACQ_TIMING_MODE_FRAME_RATE
      setInt b s s.xi_h_ .XI_PRM_FRAMERATE cfg.cam_framerate_set_
    else
      setInt b s s.xi_h_ .XI_PRM_ACQ_TIMING_MODE K.XI_ACQ_TIMING_MODE_FREE_RUN
  else s

/-- The transport buffer size computed from the payload (source lines 506-513),
in 32-bit `int` arithmetic: the difference and the sum of line 510 wrap around.
The remainder `INT_MIN % -1`, undefined in C++, is taken as 0 here and is
reported by `transportBufferSizeChecked`. -/
def transportBufferSize (payload increment minimum : Int) : Int :=
  let transport_buffer_size := payload
  let transport_buffer_size :=
    if increment ≠ 0 then
      let remainder := transport_buffer_size.tmod increment
      if remainder ≠ 0 then
        wrapInt32 (transport_buffer_size + wrapInt32 (increment - remainder))
      else transport_buffer_size
    else transport_buffer_size
  if transport_buffer_size < minimum then minimum else transport_buffer_size

/-- The value written as transport buffer size, if any (source lines 504-517);
the sum of the guard of line 504 is a 32-bit `int` sum. -/
def transportBufferWrite (payload default increment minimum : Int) : Option Int :=
  if payload < wrapInt32 (default + increment) then
    some (transportBufferSize payload increment minimum)
  else none

/-- Queue and transport buffer sizing (source lines 486-517). -/
def setBuffers (b : Backend) (s : State) : State :=
  let (s, number_of_field_buffers) := getInt b s s.xi_h_ .XI_PRM_BUFFERS_QUEUE_SIZE_INFO_MAX 0
  let s := setInt b s s.xi_h_ .XI_PRM_BUFFERS_QUEUE_SIZE number_of_field_buffers
  let (s, payload) := getInt b s s.xi_h_ .XI_PRM_IMAGE_PAYLOAD_SIZE 0
  let (s, transport_buffer_size_default) := getInt b s s.xi_h_ .XI_PRM_ACQ_TRANSPORT_BUFFER_SIZE 0
  let (s, transport_buffer_size_increment) :=
    getInt b s s.xi_h_ .XI_PRM_ACQ_TRANSPORT_BUFFER_SIZE_INFO_INCREMENT 0
  let (s, transport_buffer_size_minimum) :=
    getInt b s s.xi_h_ .XI_PRM_ACQ_TRANSPORT_BUFFER_SIZE_INFO_MIN 0
  match transportBufferWrite payload transport_buffer_size_default
      transport_buffer_size_increment transport_buffer_size_minimum with
  | some transport_buffer_size =>
    setInt b s s.xi_h_ .XI_PRM_ACQ_TRANSPORT_BUFFER_SIZE transport_buffer_size
  | none => s

/-- Start of the acquisition (source lines 521-524). -/
def startAcquisition (b : Backend) (s : State) : State :=
  { s with
    calls := s.calls ++ [(Call.xiStartAcquisition s.xi_h_, b.startAcquisition s.xi_h_)]
    is_active_ := true }

/-- The member function `openCam` (source lines 280-528). -/
def openCam (K : XiApi) (cfg : Config) (b : Backend) (s : State) : State :=
  if s.xi_h_ = 0 then s
  else
    let s := setInt b s s.xi_h_ .XI_PRM_IMAGE_DATA_FORMAT cfg.cam_format_int_
    let s := setWhiteBalance cfg b s
    let s := setTrigger K cfg b s
    let s := setExposure cfg b s
    if roiRejected cfg then s
    else
      let s := setRoi cfg b s
      let s := limitBandwidth K cfg b s
      let s := setFramerate K cfg b s
      let s := setBuffers b s
      startAcquisition b s

/-! ## Timer callbacks and lifecycle -/

/-- The answer of `xiOpenDeviceBy(XI_OPEN_BY_SN, serial, &xi_h_)`: the status
and the handle stored through the pointer (`none`: the member is untouched). -/
structure OpenAnswer where
  stat : Int
  handle : Option Nat

/-- The answer of `xiGetImage`, with the fields of `XI_IMG` the callback reads,
and the time `now()` returns right after the call. -/
structure ImageAnswer where
  stat : Int
  width : Int
  height : Int
  now : Nat

/-- The timer callback `openDeviceCb` (source lines 530-548). -/
def openDeviceCb (K : XiApi) (cfg : Config) (b : Backend) (a : OpenAnswer) (s : State) : State :=
  let s := { s with
    calls := s.calls ++ [(Call.xiOpenDeviceBy cfg.cam_serialno_, a.stat)]
    xi_h_ := a.handle.getD s.xi_h_ }
  if a.stat = K.XI_OK ∧ s.xi_h_ ≠ 0 then
    let s := { s with xi_open_device_cb_ := false }
    openCam K cfg b s
  else s

/-- The timer callback `frameCaptureCb` (source lines 551-643). The camera info
record comes from the calibration manager; only the two fields the callback
overwrites are kept. -/
def frameCaptureCb (K : XiApi) (cfg : Config) (a : ImageAnswer) (s : State) : State :=
  if s.is_active_ then
    let s := { s with
      calls := s.calls ++ [(Call.xiGetImage s.xi_h_ cfg.cam_img_cap_timeout_, a.stat)] }
    if a.stat = K.XI_OK then
      { s with published := s.published ++
          [{ mat_rows := a.height
             mat_cols := a.width
             mat_elem_bytes := 3
             img_width := 640
             img_height := 512
             encoding := cfg.cam_encoding_
             frame_id := cfg.cam_frameid_
             stamp := a.now
             info_width := 640
             info_height := 512 }] }
    else s
  else s

/-- The state after the constructor (source lines 40-56, 93-114, 249-251, 277):
not active, no handle, both timers created, and one SDK call made by `initCam`
with a null handle. -/
def construct (K : XiApi) (b : Backend) : State :=
  { is_active_ := false
    xi_h_ := 0
    min_fps_ := ⟨0, 0⟩
    max_fps_ := ⟨0, 0⟩
    xi_open_device_cb_ := true
    t_frame_cb_ := true
    calls := [(Call.xiSetParamInt 0 .XI_PRM_AUTO_BANDWIDTH_CALCULATION K.XI_ON,
               b.setParamInt 0 .XI_PRM_AUTO_BANDWIDTH_CALCULATION K.XI_ON)]
    published := [] }

/-- The destructor (source lines 58-79); `stop` and `close` are the statuses
returned by `xiStopAcquisition` and `xiCloseDevice`. -/
def destruct (stop close : Int) (s : State) : State :=
  if s.xi_h_ ≠ 0 then
    let s := { s with is_active_ := false }
    let s := { s with calls := s.calls ++ [(Call.xiStopAcquisition s.xi_h_, stop)] }
    let s := { s with calls := s.calls ++ [(Call.xiCloseDevice s.xi_h_, close)] }
    { s with xi_h_ := 0 }
  else s

/-- What the executor can run: an expiry of the poll timer, with the answer of
the device lookup, or an expiry of the capture timer, with the answer a frame
request would get. -/
inductive Event
  | poll (a : OpenAnswer)
  | tick (a : ImageAnswer)

/-- One callback run by the single-threaded executor. A timer that has been
destroyed no longer fires. -/
def step (K : XiApi) (cfg : Config) (b : Backend) (s : State) : Event → State
  | .poll a => if s.xi_open_device_cb_ then openDeviceCb K cfg b a s else s
  | .tick a => if s.t_frame_cb_ then frameCaptureCb K cfg a s else s

/-- The callbacks of a sequence of timer expiries, run in order. -/
def run (K : XiApi) (cfg : Config) (b : Backend) (s : State) (evs : List Event) : State :=
  evs.foldl (step K cfg b) s

/-- The event does not attach a device in state `s`: it is a capture tick, or a
poll for which the test of `openDeviceCb` (source line 539) is false, the
status not being `XI_OK` or the handle member being null after the call. -/
def Event.noAttach (K : XiApi) (s : State) : Event → Prop
  | .poll a => ¬ (a.stat = K.XI_OK ∧ a.handle.getD s.xi_h_ ≠ 0)
  | .tick _ => True

/-- Every event of the sequence is a capture tick or a failed poll, each taken
in the state in which it is handled. -/
def noAttachRun (K : XiApi) (cfg : Config) (b : Backend) : State → List Event → Prop
  | _, [] => True
  | s, e :: es => e.noAttach K s ∧ noAttachRun K cfg b (step K cfg b s e) es

/-- The SDK calls of a log, without the statuses. -/
def callsOf (l : List (Call × Int)) : List Call := l.map Prod.fst

/-- The log contains a frame request. -/
def requestsFrame (l : List (Call × Int)) : Prop :=
  ∃ h t st, (Call.xiGetImage h t, st) ∈ l

/-- The log entries a callback appended: the log of `after` beyond that of
`before`. -/
def issued (before after : State) : List (Call × Int) :=
  after.calls.drop before.calls.length

/-! ## The calls of openCam as lists -/

/-- The status the backend returns for a parameter or start call. -/
def answer (b : Backend) : Call → Int
  | .xiSetParamInt h prm val => b.setParamInt h prm val
  | .xiSetParamFloat h prm val => b.setParamFloat h prm val
  | .xiGetParamInt h prm => (b.getParamInt h prm).1
  | .xiGetParamFloat h prm => (b.getParamFloat h prm).1
  | .xiStartAcquisition h => b.startAcquisition h
  | _ => 0

/-- A list of calls with the status of each. -/
def logOf (b : Backend) (cs : List Call) : List (Call × Int) :=
  cs.map (fun c => (c, answer b c))

/-- The value an `int` variable holding `init` has after it is read from the
backend. -/
def readInt (b : Backend) (h : Nat) (prm : Param) (init : Int) : Int :=
  ((b.getParamInt h prm).2).getD init

/-- The value a `float` variable holding `init` has after it is read. -/
def readFloat (b : Backend) (h : Nat) (prm : Param) (init : Flt) : Flt :=
  ((b.getParamFloat h prm).2).getD init

/-- The calls of `setWhiteBalance`. -/
def whiteBalanceCalls (cfg : Config) (h : Nat) : List Call :=
  if cfg.cam_white_balance_mode_ = 2 then [.xiSetParamInt h .XI_PRM_AUTO_WB 1]
  else if cfg.cam_white_balance_mode_ = 1 then
    [.xiSetParamInt h .XI_PRM_AUTO_WB 0,
     .xiSetParamFloat h .XI_PRM_WB_KR cfg.cam_white_balance_coef_r_,
     .xiSetParamFloat h .XI_PRM_WB_KG cfg.cam_white_balance_coef_g_,
     .xiSetParamFloat h .XI_PRM_WB_KB cfg.cam_white_balance_coef_b_]
  else if cfg.cam_white_balance_mode_ = 0 then [.xiSetParamInt h .XI_PRM_AUTO_WB 0]
  else []

/-- The calls of `setTrigger`. -/
def triggerCalls (K : XiApi) (cfg : Config) (h : Nat) : List Call :=
  if cfg.cam_trigger_mode_ = 2 then
    [.xiSetParamInt h .XI_PRM_TRG_SOURCE
        (if cfg.cam_hw_trigger_edge_ = 0 then K.XI_TRG_EDGE_RISING
         else if cfg.cam_hw_trigger_edge_ = 1 then K.XI_TRG_EDGE_FALLING
         else K.XI_TRG_EDGE_RISING),
     .xiSetParamInt h .XI_PRM_GPI_SELECTOR 1,
     .xiSetParamInt h .XI_PRM_GPI_MODE K.XI_GPI_TRIGGER]
  else if cfg.cam_trigger_mode_ = 1 then [.xiSetParamInt h .XI_PRM_TRG_SOURCE K.XI_TRG_SOFTWARE]
  else [.xiSetParamInt h .XI_PRM_TRG_SOURCE K.XI_TRG_OFF]

/-- The calls of `setExposure`. -/
def exposureCalls (cfg : Config) (h : Nat) : List Call :=
  if cfg.cam_autoexposure_ = false then
    [.xiSetParamInt h .XI_PRM_AEAG 0,
     .xiSetParamInt h .XI_PRM_EXPOSURE cfg.cam_exposure_time_,
     .xiSetParamFloat h .XI_PRM_GAIN cfg.cam_manualgain_]
  else
    [.xiSetParamInt h .XI_PRM_AEAG 1,
     .xiSetParamFloat h .XI_PRM_EXP_PRIORITY cfg.cam_autoexposure_priority_,
     .xiSetParamFloat h .XI_PRM_AE_MAX_LIMIT (Flt.ofInt 24 cfg.cam_autotime_limit_),
     .xiSetParamFloat h .XI_PRM_AG_MAX_LIMIT cfg.cam_autogain_limit_]

/-- The calls of `openCam` up to the ROI check (steps 1 to 4). -/
def configCalls (K : XiApi) (cfg : Config) (h : Nat) : List Call :=
  [Call.xiSetParamInt h .XI_PRM_IMAGE_DATA_FORMAT cfg.cam_format_int_]
    ++ whiteBalanceCalls cfg h ++ triggerCalls K cfg h ++ exposureCalls cfg h

/-- The calls of `setRoi`. -/
def roiCalls (cfg : Config) (h : Nat) : List Call :=
  [.xiSetParamInt h .XI_PRM_WIDTH cfg.cam_roi_width_,
   .xiSetParamInt h .XI_PRM_HEIGHT cfg.cam_roi_height_,
   .xiSetParamInt h .XI_PRM_OFFSET_X cfg.cam_roi_left_,
   .xiSetParamInt h .XI_PRM_OFFSET_Y cfg.cam_roi_top_]

/-- The calls of `limitBandwidth`. -/
def bandwidthCalls (K : XiApi) (cfg : Config) (b : Backend) (h : Nat) : List Call :=
  [.xiGetParamInt h .XI_PRM_AVAILABLE_BANDWIDTH,
   .xiSetParamInt h .XI_PRM_LIMIT_BANDWIDTH
      (bandwidthLimit
        (perCameraBandwidth cfg.cam_num_in_bus_ (readInt b h .XI_PRM_AVAILABLE_BANDWIDTH 0))
        cfg.cam_bw_safetyratio_),
   .xiSetParamInt h .XI_PRM_LIMIT_BANDWIDTH_MODE K.XI_ON]

/-- The calls of `setFramerate`. -/
def framerateCalls (K : XiApi) (cfg : Config) (h : Nat) : List Call :=
  [.xiGetParamFloat h .XI_PRM_FRAMERATE_INFO_MIN, .xiGetParamFloat h .XI_PRM_FRAMERATE_INFO_MAX]
    ++ (if cfg.cam_trigger_mode_ = 0 then
          if cfg.cam_framerate_control_ = true then
            [.xiSetParamInt h .XI_PRM_ACQ_TIMING_MODE K.XI_ACQ_TIMING_MODE_FRAME_RATE,
             .xiSetParamInt h .XI_PRM_FRAMERATE cfg.cam_framerate_set_]
          else [.xiSetParamInt h .XI_PRM_ACQ_TIMING_MODE K.XI_ACQ_TIMING_MODE_FREE_RUN]
        else [])

/-- The transport buffer write of `setBuffers` for the values the backend
reports. -/
def bufferWrite (b : Backend) (h : Nat) : Option Int :=
  transportBufferWrite (readInt b h .XI_PRM_IMAGE_PAYLOAD_SIZE 0)
    (readInt b h .XI_PRM_ACQ_TRANSPORT_BUFFER_SIZE 0)
    (readInt b h .XI_PRM_ACQ_TRANSPORT_BUFFER_SIZE_INFO_INCREMENT 0)
    (readInt b h .XI_PRM_ACQ_TRANSPORT_BUFFER_SIZE_INFO_MIN 0)

/-- The calls of `setBuffers`. -/
def bufferCalls (b : Backend) (h : Nat) : List Call :=
  [.xiGetParamInt h .XI_PRM_BUFFERS_QUEUE_SIZE_INFO_MAX,
   .xiSetParamInt h .XI_PRM_BUFFERS_QUEUE_SIZE (readInt b h .XI_PRM_BUFFERS_QUEUE_SIZE_INFO_MAX 0),
   .xiGetParamInt h .XI_PRM_IMAGE_PAYLOAD_SIZE,
   .xiGetParamInt h .XI_PRM_ACQ_TRANSPORT_BUFFER_SIZE,
   .xiGetParamInt h .XI_PRM_ACQ_TRANSPORT_BUFFER_SIZE_INFO_INCREMENT,
   .xiGetParamInt h .XI_PRM_ACQ_TRANSPORT_BUFFER_SIZE_INFO_MIN]
    ++ (match bufferWrite b h with
        | some v => [.xiSetParamInt h .XI_PRM_ACQ_TRANSPORT_BUFFER_SIZE v]
        | none => [])

/-- The calls of `openCam` after an accepted ROI check (steps 5 to 9). -/
def acquisitionCalls (K : XiApi) (cfg : Config) (b : Backend) (h : Nat) : List Call :=
  roiCalls cfg h ++ bandwidthCalls K cfg b h ++ framerateCalls K cfg h ++ bufferCalls b h
    ++ [Call.xiStartAcquisition h]

/-- All calls of one run of `openCam` with the non-null handle `h`. -/
def openCamCalls (K : XiApi) (cfg : Config) (b : Backend) (h : Nat) : List Call :=
  configCalls K cfg h ++ (if roiRejected cfg then [] else acquisitionCalls K cfg b h)

/-- The step of the configuration sequence a parameter belongs to: 1 pixel
format, 2 white balance, 3 trigger, 4 exposure, 5 region of interest,
6 bandwidth, 7 frame rate, 8 buffers; 0 for a parameter `openCam` never uses. -/
def Param.step : Param → Nat
  | .XI_PRM_AUTO_BANDWIDTH_CALCULATION => 0
  | .XI_PRM_IMAGE_DATA_FORMAT => 1
  | .XI_PRM_AUTO_WB | .XI_PRM_WB_KR | .XI_PRM_WB_KG | .XI_PRM_WB_KB => 2
  | .XI_PRM_TRG_SOURCE | .XI_PRM_GPI_SELECTOR | .XI_PRM_GPI_MODE => 3
  | .XI_PRM_AEAG | .XI_PRM_EXPOSURE | .XI_PRM_GAIN | .XI_PRM_EXP_PRIORITY
  | .XI_PRM_AE_MAX_LIMIT | .XI_PRM_AG_MAX_LIMIT => 4
  | .XI_PRM_WIDTH | .XI_PRM_HEIGHT | .XI_PRM_OFFSET_X | .XI_PRM_OFFSET_Y => 5
  | .XI_PRM_AVAILABLE_BANDWIDTH | .XI_PRM_LIMIT_BANDWIDTH | .XI_PRM_LIMIT_BANDWIDTH_MODE => 6
  | .XI_PRM_FRAMERATE_INFO_MIN | .XI_PRM_FRAMERATE_INFO_MAX | .XI_PRM_ACQ_TIMING_MODE
  | .XI_PRM_FRAMERATE => 7
  | .XI_PRM_BUFFERS_QUEUE_SIZE_INFO_MAX | .XI_PRM_BUFFERS_QUEUE_SIZE
  | .XI_PRM_IMAGE_PAYLOAD_SIZE | .XI_PRM_ACQ_TRANSPORT_BUFFER_SIZE
  | .XI_PRM_ACQ_TRANSPORT_BUFFER_SIZE_INFO_INCREMENT
  | .XI_PRM_ACQ_TRANSPORT_BUFFER_SIZE_INFO_MIN => 8

/-- The step of the configuration sequence a call belongs to: that of its
parameter, 9 for the start of the acquisition, 0 for the other calls. -/
def Call.step : Call → Nat
  | .xiSetParamInt _ prm _ => prm.step
  | .xiSetParamFloat _ prm _ => prm.step
  | .xiGetParamInt _ prm => prm.step
  | .xiGetParamFloat _ prm => prm.step
  | .xiStartAcquisition _ => 9
  | _ => 0

/-- A configuration as `initCam` leaves it for the given format, ROI and camera
model, the other parameters having their declared defaults. -/
def sampleConfig (format : String) (left top width height cam_model_ : Int) : Config :=
  initCam xiApiValues
    { Params.declared with
      cam_format_ := format
      cam_roi_left_ := left
      cam_roi_top_ := top
      cam_roi_width_ := width
      cam_roi_height_ := height }
    cam_model_

/-- A backend that returns `stat` for every call and reports the given
payload size and transport buffer default, increment and minimum; every other
read leaves its variable untouched. -/
def sampleBackend (stat payload default increment minimum : Int) : Backend where
  setParamInt := fun _ _ _ => stat
  setParamFloat := fun _ _ _ => stat
  getParamInt := fun _ prm =>
    match prm with
    | .XI_PRM_IMAGE_PAYLOAD_SIZE => (stat, some payload)
    | .XI_PRM_ACQ_TRANSPORT_BUFFER_SIZE => (stat, some default)
    | .XI_PRM_ACQ_TRANSPORT_BUFFER_SIZE_INFO_INCREMENT => (stat, some increment)
    | .XI_PRM_ACQ_TRANSPORT_BUFFER_SIZE_INFO_MIN => (stat, some minimum)
    | _ => (stat, none)
  getParamFloat := fun _ _ => (stat, none)
  startAcquisition := fun _ => stat

/-- The sample configuration with a full-frame ROI on camera model 0, for the
given number of cameras on the bus and safety ratio. -/
def bandwidthConfig (cam_num_in_bus_ : Int) (cam_bw_safetyratio_ : Flt) : Config :=
  { sampleConfig "XI_MONO8" 0 0 2048 1088 0 with
    cam_num_in_bus_ := cam_num_in_bus_
    cam_bw_safetyratio_ := cam_bw_safetyratio_ }

/-- A backend that returns status 0 for every call and reports the given
available bandwidth; every other read leaves its variable untouched. -/
def bandwidthBackend (avail : Int) : Backend where
  setParamInt := fun _ _ _ => 0
  setParamFloat := fun _ _ _ => 0
  getParamInt := fun _ prm =>
    match prm with
    | .XI_PRM_AVAILABLE_BANDWIDTH => (0, some avail)
    | _ => (0, none)
  getParamFloat := fun _ _ => (0, none)
  startAcquisition := fun _ => 0

/-- The state in which `openDeviceCb` calls `openCam` after a successful first
poll that stored the handle `h`. -/
def attached (K : XiApi) (b : Backend) (h : Nat) : State :=
  { construct K b with xi_h_ := h, xi_open_device_cb_ := false }

/-- The rounded payload `r` of the specification: the payload itself when the
increment is zero or divides the payload, and otherwise the payload plus
`increment - (payload mod increment)`, with the mathematical remainder. -/
def roundedPayload (payload increment : Int) : Int :=
  if increment = 0 ∨ payload % increment = 0 then payload
  else payload + (increment - payload % increment)

/-- The three constraints of the specification on a transport buffer size `n`:
(i) at least the payload, (ii) a multiple of the increment, or unconstrained
when the increment is zero, (iii) at least the minimum. -/
def bufferConstraints (payload increment minimum : Int) : Set Int :=
  {n | payload ≤ n ∧ (increment = 0 ∨ increment ∣ n) ∧ minimum ≤ n}

/-- The states the destructor passes through when a handle exists, one after
each of its four statements (source lines 66, 67, 70 and 71). -/
def destructStates (stop close : Int) (s : State) : List State :=
  if s.xi_h_ ≠ 0 then
    let s1 := { s with is_active_ := false }
    let s2 := { s1 with calls := s1.calls ++ [(Call.xiStopAcquisition s1.xi_h_, stop)] }
    let s3 := { s2 with calls := s2.calls ++ [(Call.xiCloseDevice s2.xi_h_, close)] }
    let s4 := { s3 with xi_h_ := 0 }
    [s1, s2, s3, s4]
  else []

/-- The publications a callback added: those of `after` beyond those of
`before`. -/
def publishedBy (before after : State) : List Publication :=
  after.published.drop before.published.length

/-- The state of a node that is acquiring with the handle `h`: `openCam` has
run to its end after the first successful poll. -/
def acquiring (K : XiApi) (b : Backend) (h : Nat) : State :=
  { attached K b h with is_active_ := true }

/-- The sample configuration with a full-frame ROI on camera model 0, for the
given trigger mode, frame-rate control flag and target rate. -/
def triggerConfig (cam_trigger_mode_ : Int) (cam_framerate_control_ : Bool)
    (cam_framerate_set_ : Int) : Config :=
  { sampleConfig "XI_MONO8" 0 0 2048 1088 0 with
    cam_trigger_mode_ := cam_trigger_mode_
    cam_framerate_control_ := cam_framerate_control_
    cam_framerate_set_ := cam_framerate_set_ }

/-- The operations of `openCam` that C++ leaves undefined. -/
inductive ArithError
  /-- Division or remainder with a zero divisor. -/
  | zeroDivisor
  /-- The remainder `INT_MIN % -1`. -/
  | remainderOverflow
  /-- A sum or difference outside the range of `int`. -/
  | overflow
  /-- A conversion of a float outside the range of `int` to `int`. -/
  | castOutOfRange
deriving DecidableEq, Repr

/-- The outcome of a computation in which every undefined operation is
reported. -/
inductive Checked (α : Type)
  | ok (value : α)
  | undefined (e : ArithError)
deriving DecidableEq, Repr

/-- Sequencing: the first undefined operation ends the computation. -/
def Checked.bind {α β : Type} (x : Checked α) (f : α → Checked β) : Checked β :=
  match x with
  | .ok value => f value
  | .undefined e => .undefined e

/-- The sum `a + b` of two `int` values: undefined outside the range of `int`. -/
def addChecked (a b : Int) : Checked Int :=
  if -2147483648 ≤ a + b ∧ a + b < 2147483648 then .ok (a + b) else .undefined .overflow

/-- The difference `a - b` of two `int` values: undefined outside the range of
`int`. -/
def subChecked (a b : Int) : Checked Int :=
  if -2147483648 ≤ a - b ∧ a - b < 2147483648 then .ok (a - b) else .undefined .overflow

/-- The C++ remainder `a % b` on `int`: undefined when `b` is zero and for
`INT_MIN % -1`. -/
def remChecked (a b : Int) : Checked Int :=
  if b = 0 then .undefined .zeroDivisor
  else if a = -2147483648 ∧ b = -1 then .undefined .remainderOverflow
  else .ok (a.tmod b)

/-- The quotient `x / y` of two floats: there is no finite result when the
divisor is zero. -/
def Flt.divChecked (p : Nat) (x y : Flt) : Checked Flt :=
  if y.m = 0 then .undefined .zeroDivisor else .ok (Flt.div p x y)

/-- The conversion `(int)x`: undefined when the truncated value is outside the
range of `int`. -/
def Flt.toInt32Checked (x : Flt) : Checked Int :=
  if -2147483648 ≤ x.toInt ∧ x.toInt < 2147483648 then .ok x.toInt
  else .undefined .castOutOfRange

/-- The bandwidth share of source lines 430-432 with every operation checked. -/
def perCameraBandwidthChecked (cam_num_in_bus_ avail_bw : Int) : Checked Int :=
  if cam_num_in_bus_ > 1 then
    (Flt.divChecked 53 (Flt.ofInt 53 avail_bw) (Flt.ofInt 53 cam_num_in_bus_)).bind
      Flt.toInt32Checked
  else .ok avail_bw

/-- The bandwidth limit of source line 439 with the conversion checked. -/
def bandwidthLimitChecked (avail_bw : Int) (cam_bw_safetyratio_ : Flt) : Checked Int :=
  Flt.toInt32Checked (Flt.mul 24 (Flt.ofInt 24 avail_bw) cam_bw_safetyratio_)

/-- The transport buffer size of source lines 506-513 with every operation
checked. -/
def transportBufferSizeChecked (payload increment minimum : Int) : Checked Int :=
  let transport_buffer_size := payload
  let rounded : Checked Int :=
    if increment ≠ 0 then
      (remChecked transport_buffer_size increment).bind fun remainder =>
        if remainder ≠ 0 then
          (subChecked increment remainder).bind fun difference =>
            addChecked transport_buffer_size difference
        else .ok transport_buffer_size
    else .ok transport_buffer_size
  rounded.bind fun transport_buffer_size =>
    .ok (if transport_buffer_size < minimum then minimum else transport_buffer_size)

/-- The transport buffer write of source lines 504-517 with every operation
checked. -/
def transportBufferWriteChecked (payload default increment minimum : Int) :
    Checked (Option Int) :=
  (addChecked default increment).bind fun sum =>
    if payload < sum then
      (transportBufferSizeChecked payload increment minimum).bind fun transport_buffer_size =>
        .ok (some transport_buffer_size)
    else .ok none

/-! ## Structure of openCam -/

theorem callsOf_logOf (b : Backend) (cs : List Call) : callsOf (logOf b cs) = cs := by
  induction cs with
  | nil => rfl
  | cons c cs ih =>
    simp only [callsOf, logOf, List.map_cons, List.map_map] at ih ⊢
    rw [ih]

theorem logOf_append (b : Backend) (cs ds : List Call) :
    logOf b (cs ++ ds) = logOf b cs ++ logOf b ds := by
  simp [logOf]

theorem setWhiteBalance_eq (cfg : Config) (b : Backend) (s : State) :
    setWhiteBalance cfg b s
      = { s with calls := s.calls ++ logOf b (whiteBalanceCalls cfg s.xi_h_) } := by
  unfold setWhiteBalance whiteBalanceCalls
  split_ifs <;> simp [setInt, setFloat, logOf, answer]

theorem setTrigger_eq (K : XiApi) (cfg : Config) (b : Backend) (s : State) :
    setTrigger K cfg b s
      = { s with calls := s.calls ++ logOf b (triggerCalls K cfg s.xi_h_) } := by
  unfold setTrigger triggerCalls
  split_ifs <;> simp [setInt, logOf, answer]

theorem setExposure_eq (cfg : Config) (b : Backend) (s : State) :
    setExposure cfg b s
      = { s with calls := s.calls ++ logOf b (exposureCalls cfg s.xi_h_) } := by
  unfold setExposure exposureCalls
  cases cfg.cam_autoexposure_ <;> simp [setInt, setFloat, logOf, answer]

theorem setRoi_eq (cfg : Config) (b : Backend) (s : State) :
    setRoi cfg b s = { s with calls := s.calls ++ logOf b (roiCalls cfg s.xi_h_) } := by
  simp [setRoi, roiCalls, setInt, logOf, answer]

theorem limitBandwidth_eq (K : XiApi) (cfg : Config) (b : Backend) (s : State) :
    limitBandwidth K cfg b s
      = { s with calls := s.calls ++ logOf b (bandwidthCalls K cfg b s.xi_h_) } := by
  simp [limitBandwidth, bandwidthCalls, getInt, setInt, logOf, answer, readInt]

theorem setFramerate_eq (K : XiApi) (cfg : Config) (b : Backend) (s : State) :
    setFramerate K cfg b s
      = { s with
          calls := s.calls ++ logOf b (framerateCalls K cfg s.xi_h_)
          min_fps_ := readFloat b s.xi_h_ .XI_PRM_FRAMERATE_INFO_MIN s.min_fps_
          max_fps_ := readFloat b s.xi_h_ .XI_PRM_FRAMERATE_INFO_MAX s.max_fps_ } := by
  unfold setFramerate framerateCalls
  cases cfg.cam_framerate_control_ <;>
    split_ifs <;> simp [getFloat, setInt, logOf, answer, readFloat]

theorem setBuffers_eq (b : Backend) (s : State) :
    setBuffers b s = { s with calls := s.calls ++ logOf b (bufferCalls b s.xi_h_) } := by
  unfold setBuffers bufferCalls bufferWrite
  simp only [getInt, setInt, readInt]
  split <;> rename_i hw <;> simp [hw, logOf, answer]

/-- Normal form of `openCam` for a non-null handle: the calls appended to the
log, and the members changed. -/
theorem openCam_eq (K : XiApi) (cfg : Config) (b : Backend) (s : State) (h : s.xi_h_ ≠ 0) :
    openCam K cfg b s =
      if roiRejected cfg then
        { s with calls := s.calls ++ logOf b (openCamCalls K cfg b s.xi_h_) }
      else
        { s with
          calls := s.calls ++ logOf b (openCamCalls K cfg b s.xi_h_)
          min_fps_ := readFloat b s.xi_h_ .XI_PRM_FRAMERATE_INFO_MIN s.min_fps_
          max_fps_ := readFloat b s.xi_h_ .XI_PRM_FRAMERATE_INFO_MAX s.max_fps_
          is_active_ := true } := by
  unfold openCam
  rw [if_neg h]
  simp only [setWhiteBalance_eq, setTrigger_eq, setExposure_eq, setRoi_eq, limitBandwidth_eq,
    setFramerate_eq, setBuffers_eq, setInt, startAcquisition, openCamCalls, configCalls,
    acquisitionCalls]
  split_ifs <;> simp [logOf, answer]

theorem issued_append (s t : State) (l : List (Call × Int)) (h : t.calls = s.calls ++ l) :
    issued s t = l := by
  simp [issued, h]

theorem issued_openCam (K : XiApi) (cfg : Config) (b : Backend) (s : State) (h : s.xi_h_ ≠ 0) :
    issued s (openCam K cfg b s) = logOf b (openCamCalls K cfg b s.xi_h_) := by
  apply issued_append
  rw [openCam_eq K cfg b s h]
  split_ifs <;> rfl

theorem openCam_is_active (K : XiApi) (cfg : Config) (b : Backend) (s : State)
    (h : s.xi_h_ ≠ 0) :
    (openCam K cfg b s).is_active_ = if roiRejected cfg then s.is_active_ else true := by
  rw [openCam_eq K cfg b s h]
  split_ifs <;> rfl

theorem mem_logOf {b : Backend} {cs : List Call} {c : Call} {st : Int}
    (h : (c, st) ∈ logOf b cs) : c ∈ cs := by
  simp only [logOf, List.mem_map, Prod.mk.injEq] at h
  obtain ⟨d, hd, rfl, -⟩ := h
  exact hd

theorem mem_logOf_of_mem {b : Backend} {cs : List Call} {c : Call} (h : c ∈ cs) :
    (c, answer b c) ∈ logOf b cs := by
  simp only [logOf, List.mem_map, Prod.mk.injEq]
  exact ⟨c, h, rfl, rfl⟩

theorem step_whiteBalanceCalls (cfg : Config) (h : Nat) :
    ∀ c ∈ whiteBalanceCalls cfg h, c.step = 2 := by
  unfold whiteBalanceCalls
  split_ifs <;> simp [Call.step, Param.step]

theorem step_triggerCalls (K : XiApi) (cfg : Config) (h : Nat) :
    ∀ c ∈ triggerCalls K cfg h, c.step = 3 := by
  unfold triggerCalls
  split_ifs <;> simp [Call.step, Param.step]

theorem step_exposureCalls (cfg : Config) (h : Nat) :
    ∀ c ∈ exposureCalls cfg h, c.step = 4 := by
  unfold exposureCalls
  split_ifs <;> simp [Call.step, Param.step]

theorem step_configCalls (K : XiApi) (cfg : Config) (h : Nat) :
    ∀ c ∈ configCalls K cfg h, 1 ≤ c.step ∧ c.step ≤ 4 := by
  intro c hc
  simp only [configCalls, List.mem_append, List.mem_singleton] at hc
  rcases hc with ((rfl | hc) | hc) | hc
  · simp [Call.step, Param.step]
  · simp [step_whiteBalanceCalls cfg h c hc]
  · simp [step_triggerCalls K cfg h c hc]
  · simp [step_exposureCalls cfg h c hc]

/-! ## Region of interest -/

/-- Whenever the two sums of the ROI check are evaluated, the disjuncts before
them being false, and the bounds are below `2^30`, the sums are within the
range of a 32-bit `int`, so the check computes them without overflow. -/
theorem roi_sums_in_int_range (left top width height maxW maxH : Int)
    (hW : maxW < 2 ^ 30) (hH : maxH < 2 ^ 30)
    (h : (decide (left < 0) || decide (left > maxW) || decide (top < 0) || decide (top > maxH)
      || decide (width < 0) || decide (width > maxW) || decide (height < 0)
      || decide (height > maxH)) = false) :
    0 ≤ left + width ∧ left + width < 2 ^ 31 ∧ 0 ≤ top + height ∧ top + height < 2 ^ 31 := by
  simp only [Bool.or_eq_false_iff, decide_eq_false_iff_not] at h
  omega

/-- C1: for every ROI rectangle and every pair of bounds, the ROI bounds check
of `openCam` accepts (its condition is false, so `openCam` does not return
early) if and only if left, top, width and height are non-negative, width and
height do not exceed their maxima, and `left + width ≤ maxW`,
`top + height ≤ maxH`; in every other case it rejects. -/
theorem roi_check_accepts_iff (left top width height maxW maxH : Int) :
    roiOutOfBounds left top width height maxW maxH = false ↔
      (0 ≤ left ∧ 0 ≤ top ∧ 0 ≤ width ∧ 0 ≤ height ∧ width ≤ maxW ∧ height ≤ maxH ∧
        left + width ≤ maxW ∧ top + height ≤ maxH) := by
  simp only [roiOutOfBounds, Bool.or_eq_false_iff, decide_eq_false_iff_not]
  omega

/-! ## Statuses and the start of the acquisition -/

theorem readInt_congr (b b' : Backend)
    (hInt : ∀ h prm, (b.getParamInt h prm).2 = (b'.getParamInt h prm).2) (h : Nat) (prm : Param)
    (init : Int) : readInt b h prm init = readInt b' h prm init := by
  simp [readInt, hInt]

theorem openCamCalls_congr (K : XiApi) (cfg : Config) (b b' : Backend)
    (hInt : ∀ h prm, (b.getParamInt h prm).2 = (b'.getParamInt h prm).2) (h : Nat) :
    openCamCalls K cfg b h = openCamCalls K cfg b' h := by
  simp only [openCamCalls, acquisitionCalls, bandwidthCalls, bufferCalls, bufferWrite,
    readInt_congr b b' hInt]

theorem start_mem_openCamCalls (K : XiApi) (cfg : Config) (b : Backend) (h : Nat) :
    Call.xiStartAcquisition h ∈ openCamCalls K cfg b h ↔ roiRejected cfg = false := by
  constructor
  · intro hm
    by_contra hr
    simp only [Bool.not_eq_false] at hr
    simp only [openCamCalls, hr, if_true, List.append_nil] at hm
    have := step_configCalls K cfg h _ hm
    simp [Call.step] at this
  · intro hr
    simp [openCamCalls, acquisitionCalls, hr]

/-- C2: for every configuration, every state with a non-null handle in which
the node is not yet active, and every two backends that store the same integer
values on reads but return arbitrary, possibly different statuses: `openCam` issues
the start-acquisition call if and only if the ROI check accepts, it ends with
`is_active_ = true` if and only if the ROI check accepts, and the sequence of
calls issued and the final `is_active_` are the same for both backends. -/
theorem openCam_starts_iff_roi_accepted (K : XiApi) (cfg : Config) (b b' : Backend) (s : State)
    (hh : s.xi_h_ ≠ 0) (hact : s.is_active_ = false)
    (hInt : ∀ h prm, (b.getParamInt h prm).2 = (b'.getParamInt h prm).2) :
    ((∃ st, (Call.xiStartAcquisition s.xi_h_, st) ∈ issued s (openCam K cfg b s))
        ↔ roiRejected cfg = false) ∧
    ((openCam K cfg b s).is_active_ = true ↔ roiRejected cfg = false) ∧
    callsOf (issued s (openCam K cfg b s)) = callsOf (issued s (openCam K cfg b' s)) ∧
    (openCam K cfg b s).is_active_ = (openCam K cfg b' s).is_active_ := by
  refine ⟨?_, ?_, ?_, ?_⟩
  · rw [issued_openCam K cfg b s hh, ← start_mem_openCamCalls K cfg b s.xi_h_]
    exact ⟨fun ⟨_, hm⟩ => mem_logOf hm, fun hm => ⟨_, mem_logOf_of_mem hm⟩⟩
  · rw [openCam_is_active K cfg b s hh, hact]
    cases roiRejected cfg <;> simp
  · rw [issued_openCam K cfg b s hh, issued_openCam K cfg b' s hh, callsOf_logOf, callsOf_logOf,
      openCamCalls_congr K cfg b b' hInt]
  · rw [openCam_is_active K cfg b s hh, openCam_is_active K cfg b' s hh]

/-- Witness of C2: a full-frame ROI on camera model 0, handle 1, one backend
answering every call with status 0 and one answering with status -1. -/
theorem openCam_starts_iff_roi_accepted_witness :
    (attached xiApiValues (sampleBackend 0 1000 900 256 512) 1).xi_h_ ≠ 0 ∧
    (attached xiApiValues (sampleBackend 0 1000 900 256 512) 1).is_active_ = false ∧
    (∃ st, (Call.xiStartAcquisition 1, st) ∈
      issued (attached xiApiValues (sampleBackend 0 1000 900 256 512) 1)
        (openCam xiApiValues (sampleConfig "XI_MONO8" 0 0 2048 1088 0)
          (sampleBackend 0 1000 900 256 512)
          (attached xiApiValues (sampleBackend 0 1000 900 256 512) 1))) ∧
    (openCam xiApiValues (sampleConfig "XI_MONO8" 0 0 2048 1088 0)
        (sampleBackend (-1) 1000 900 256 512)
        (attached xiApiValues (sampleBackend 0 1000 900 256 512) 1)).is_active_ = true := by
  have h := openCam_starts_iff_roi_accepted xiApiValues (sampleConfig "XI_MONO8" 0 0 2048 1088 0)
    (sampleBackend 0 1000 900 256 512) (sampleBackend (-1) 1000 900 256 512)
    (attached xiApiValues (sampleBackend 0 1000 900 256 512) 1) (by decide) rfl
    (fun _ prm => by cases prm <;> rfl)
  have hr : roiRejected (sampleConfig "XI_MONO8" 0 0 2048 1088 0) = false := by decide
  exact ⟨by decide, rfl, h.1.2 hr, h.2.2.2 ▸ h.2.1.2 hr⟩

/-! ## Abort on an ROI outside the bounds -/

theorem frameCaptureCb_inactive (K : XiApi) (cfg : Config) (a : ImageAnswer) (s : State)
    (h : s.is_active_ = false) : frameCaptureCb K cfg a s = s := by
  simp [frameCaptureCb, h]

theorem step_idle (K : XiApi) (cfg : Config) (b : Backend) (s : State) (e : Event)
    (hact : s.is_active_ = false) (htimer : s.xi_open_device_cb_ = false) :
    step K cfg b s e = s := by
  cases e with
  | poll a => simp [step, htimer]
  | tick a => simp [step, frameCaptureCb_inactive K cfg a s hact]

theorem run_idle (K : XiApi) (cfg : Config) (b : Backend) (s : State) (evs : List Event)
    (hact : s.is_active_ = false) (htimer : s.xi_open_device_cb_ = false) :
    run K cfg b s evs = s := by
  induction evs with
  | nil => rfl
  | cons e es ih =>
    simp only [run, List.foldl_cons] at ih ⊢
    rw [step_idle K cfg b s e hact htimer]
    exact ih

/-- C3: when the ROI check rejects, in the state in which `openDeviceCb` calls
`openCam` (non-null handle, not active, poll timer already destroyed), every
call `openCam` issues belongs to steps 1 to 4, so there is no ROI write, no
bandwidth, frame-rate or buffer call and no start-acquisition call;
`is_active_` stays false; and every later sequence of timer events leaves the
state unchanged, so no capture tick requests a frame or publishes anything. -/
theorem roi_rejection_aborts (K : XiApi) (cfg : Config) (b : Backend) (s : State)
    (hh : s.xi_h_ ≠ 0) (hact : s.is_active_ = false) (htimer : s.xi_open_device_cb_ = false)
    (hroi : roiRejected cfg = true) :
    (∀ e ∈ issued s (openCam K cfg b s), 1 ≤ e.1.step ∧ e.1.step ≤ 4) ∧
    (openCam K cfg b s).is_active_ = false ∧
    ∀ evs : List Event,
      (run K cfg b (openCam K cfg b s) evs).is_active_ = false ∧
      issued (openCam K cfg b s) (run K cfg b (openCam K cfg b s) evs) = [] ∧
      (run K cfg b (openCam K cfg b s) evs).published = (openCam K cfg b s).published := by
  have hact1 : (openCam K cfg b s).is_active_ = false := by
    rw [openCam_is_active K cfg b s hh, hroi, if_pos rfl, hact]
  have htimer1 : (openCam K cfg b s).xi_open_device_cb_ = false := by
    rw [openCam_eq K cfg b s hh, hroi, if_pos rfl]
    exact htimer
  refine ⟨?_, hact1, ?_⟩
  · intro e he
    rw [issued_openCam K cfg b s hh] at he
    have hc : e.1 ∈ openCamCalls K cfg b s.xi_h_ := @mem_logOf b _ e.1 e.2 he
    simp only [openCamCalls, hroi, if_true, List.append_nil] at hc
    exact step_configCalls K cfg s.xi_h_ e.1 hc
  · intro evs
    rw [run_idle K cfg b _ evs hact1 htimer1]
    exact ⟨hact1, by simp [issued], rfl⟩

/-- Witness of C3: the ROI `(0, 0, 4096, 1088)` against the bounds
`(2048, 1088)` of camera model 0. -/
theorem roi_rejection_aborts_witness :
    roiRejected (sampleConfig "XI_MONO8" 0 0 4096 1088 0) = true ∧
    (∀ e ∈ issued (attached xiApiValues (sampleBackend 0 1000 900 256 512) 1)
        (openCam xiApiValues (sampleConfig "XI_MONO8" 0 0 4096 1088 0)
          (sampleBackend 0 1000 900 256 512)
          (attached xiApiValues (sampleBackend 0 1000 900 256 512) 1)),
      1 ≤ e.1.step ∧ e.1.step ≤ 4) ∧
    (openCam xiApiValues (sampleConfig "XI_MONO8" 0 0 4096 1088 0)
        (sampleBackend 0 1000 900 256 512)
        (attached xiApiValues (sampleBackend 0 1000 900 256 512) 1)).is_active_ = false :=
  have h := roi_rejection_aborts xiApiValues (sampleConfig "XI_MONO8" 0 0 4096 1088 0)
    (sampleBackend 0 1000 900 256 512)
    (attached xiApiValues (sampleBackend 0 1000 900 256 512) 1) (by decide) rfl rfl (by decide)
  ⟨by decide, h.1, h.2.1⟩

/-! ## Transport buffer size -/

theorem wrapInt32_eq (x : Int) (h1 : -2147483648 ≤ x) (h2 : x < 2147483648) :
    wrapInt32 x = x := by
  unfold wrapInt32
  omega

/-- Without overflow at source line 510, the size computed is the rounded
payload clamped up to the minimum. -/
theorem transportBufferSize_eq (payload increment minimum : Int) (hp : 0 ≤ payload)
    (hi : 0 ≤ increment) (hr : roundedPayload payload increment < 2147483648) :
    transportBufferSize payload increment minimum
      = max minimum (roundedPayload payload increment) := by
  unfold roundedPayload at hr
  unfold transportBufferSize roundedPayload
  simp only [Int.tmod_eq_emod hp hi]
  by_cases h0 : increment = 0
  · subst h0
    simp only [ne_eq, not_true_eq_false, if_false, true_or, if_true]
    split_ifs <;> omega
  · by_cases hm : payload % increment = 0
    · simp only [ne_eq, h0, not_false_eq_true, if_true, hm, not_true_eq_false, if_false,
        or_true]
      split_ifs <;> omega
    · have hlt := Int.emod_lt_of_pos payload (lt_of_le_of_ne hi (Ne.symm h0))
      have hnn := Int.emod_nonneg payload h0
      rw [if_neg (by simp [h0, hm])] at hr
      have hw1 : wrapInt32 (increment - payload % increment) = increment - payload % increment :=
        wrapInt32_eq _ (by omega) (by omega)
      have hw2 : wrapInt32 (payload + (increment - payload % increment))
          = payload + (increment - payload % increment) := wrapInt32_eq _ (by omega) (by omega)
      simp only [ne_eq, h0, not_false_eq_true, if_true, hm, false_or, if_false, hw1, hw2]
      split_ifs <;> omega

theorem roundedPayload_ge (payload increment : Int) (hi : 0 ≤ increment) :
    payload ≤ roundedPayload payload increment := by
  unfold roundedPayload
  split_ifs with h
  · exact le_refl _
  · have h0 : increment ≠ 0 := fun h0 => h (Or.inl h0)
    have := Int.emod_lt_of_pos payload (lt_of_le_of_ne hi (Ne.symm h0))
    omega

theorem roundedPayload_aligned (payload increment : Int) :
    increment = 0 ∨ increment ∣ roundedPayload payload increment := by
  unfold roundedPayload
  by_cases h0 : increment = 0
  · exact Or.inl h0
  · right
    split_ifs with h
    · rcases h with h | h
      · exact absurd h h0
      · exact Int.dvd_of_emod_eq_zero h
    · refine ⟨payload / increment + 1, ?_⟩
      have := Int.emod_add_ediv payload increment
      linarith

theorem roundedPayload_least (payload increment n : Int) (hi : 0 ≤ increment)
    (hn : payload ≤ n) (ha : increment = 0 ∨ increment ∣ n) :
    roundedPayload payload increment ≤ n := by
  unfold roundedPayload
  split_ifs with h
  · exact hn
  · have h0 : increment ≠ 0 := fun h0 => h (Or.inl h0)
    have hr : payload % increment ≠ 0 := fun hr => h (Or.inr hr)
    have hpos : 0 < increment := lt_of_le_of_ne hi (Ne.symm h0)
    rcases ha with ha | ⟨k, rfl⟩
    · exact absurd ha h0
    · have hdiv := Int.emod_add_ediv payload increment
      have hnn := Int.emod_nonneg payload h0
      have hlt : payload / increment < k := by
        by_contra hk
        have hk : k ≤ payload / increment := not_lt.mp hk
        have := mul_le_mul_of_nonneg_left hk hi
        omega
      have := mul_le_mul_of_nonneg_left (show payload / increment + 1 ≤ k by omega) hi
      linarith

theorem step_roiCalls (cfg : Config) (h : Nat) : ∀ c ∈ roiCalls cfg h, c.step = 5 := by
  simp [roiCalls, Call.step, Param.step]

theorem step_bandwidthCalls (K : XiApi) (cfg : Config) (b : Backend) (h : Nat) :
    ∀ c ∈ bandwidthCalls K cfg b h, c.step = 6 := by
  simp [bandwidthCalls, Call.step, Param.step]

theorem step_framerateCalls (K : XiApi) (cfg : Config) (h : Nat) :
    ∀ c ∈ framerateCalls K cfg h, c.step = 7 := by
  unfold framerateCalls
  split_ifs <;> simp [Call.step, Param.step]

theorem transport_write_mem_bufferCalls (b : Backend) (h : Nat) (v : Int) :
    Call.xiSetParamInt h .XI_PRM_ACQ_TRANSPORT_BUFFER_SIZE v ∈ bufferCalls b h
      ↔ bufferWrite b h = some v := by
  unfold bufferCalls
  cases bufferWrite b h with
  | none => simp
  | some w => simp [eq_comm]

/-- The transport buffer write is among the calls of `openCam` exactly when the
ROI check accepts and the buffer computation yields that value. -/
theorem transport_write_mem (K : XiApi) (cfg : Config) (b : Backend) (h : Nat) (v : Int) :
    Call.xiSetParamInt h .XI_PRM_ACQ_TRANSPORT_BUFFER_SIZE v ∈ openCamCalls K cfg b h
      ↔ roiRejected cfg = false ∧ bufferWrite b h = some v := by
  have hstep : (Call.xiSetParamInt h .XI_PRM_ACQ_TRANSPORT_BUFFER_SIZE v).step = 8 := rfl
  have hcfg : Call.xiSetParamInt h .XI_PRM_ACQ_TRANSPORT_BUFFER_SIZE v ∉ configCalls K cfg h := by
    intro hm
    have := step_configCalls K cfg h _ hm
    omega
  have hroi : Call.xiSetParamInt h .XI_PRM_ACQ_TRANSPORT_BUFFER_SIZE v ∉ roiCalls cfg h := by
    intro hm
    have := step_roiCalls cfg h _ hm
    omega
  have hbw : Call.xiSetParamInt h .XI_PRM_ACQ_TRANSPORT_BUFFER_SIZE v
      ∉ bandwidthCalls K cfg b h := by
    intro hm
    have := step_bandwidthCalls K cfg b h _ hm
    omega
  have hfr : Call.xiSetParamInt h .XI_PRM_ACQ_TRANSPORT_BUFFER_SIZE v
      ∉ framerateCalls K cfg h := by
    intro hm
    have := step_framerateCalls K cfg h _ hm
    omega
  cases hr : roiRejected cfg with
  | true => simp [openCamCalls, hcfg, hr]
  | false =>
    simp [openCamCalls, acquisitionCalls, hcfg, hroi, hbw, hfr, hr,
      transport_write_mem_bufferCalls]

theorem transport_write_issued (K : XiApi) (cfg : Config) (b : Backend) (s : State)
    (hh : s.xi_h_ ≠ 0) (v st : Int) :
    (Call.xiSetParamInt s.xi_h_ .XI_PRM_ACQ_TRANSPORT_BUFFER_SIZE v, st)
        ∈ issued s (openCam K cfg b s)
      ↔ roiRejected cfg = false ∧ bufferWrite b s.xi_h_ = some v ∧
        st = b.setParamInt s.xi_h_ .XI_PRM_ACQ_TRANSPORT_BUFFER_SIZE v := by
  rw [issued_openCam K cfg b s hh]
  constructor
  · intro hm
    have hc := (transport_write_mem K cfg b s.xi_h_ v).1 (mem_logOf hm)
    simp only [logOf, List.mem_map, Prod.mk.injEq] at hm
    obtain ⟨c, -, rfl, rfl⟩ := hm
    exact ⟨hc.1, hc.2, rfl⟩
  · rintro ⟨hr, hw, rfl⟩
    exact mem_logOf_of_mem ((transport_write_mem K cfg b s.xi_h_ v).2 ⟨hr, hw⟩)

theorem bufferWrite_eq (b : Backend) (h : Nat) (payload default increment minimum : Int)
    (hpay : readInt b h .XI_PRM_IMAGE_PAYLOAD_SIZE 0 = payload)
    (hdef : readInt b h .XI_PRM_ACQ_TRANSPORT_BUFFER_SIZE 0 = default)
    (hinc : readInt b h .XI_PRM_ACQ_TRANSPORT_BUFFER_SIZE_INFO_INCREMENT 0 = increment)
    (hmin : readInt b h .XI_PRM_ACQ_TRANSPORT_BUFFER_SIZE_INFO_MIN 0 = minimum) :
    bufferWrite b h = transportBufferWrite payload default increment minimum := by
  rw [bufferWrite, hpay, hdef, hinc, hmin]

/-- Counterexample to C4: for payload 2147483600, default 2147482647, increment
1000 and minimum 512 (payload and increment non-negative, full-frame ROI on
camera model 0, handle 1) the value `max(minimum, r)` of the claim is
2147484000, which no `int` holds: the sum of source line 510 overflows, and
with 32-bit wrap-around the size written is the minimum 512. -/
theorem rounded_payload_exceeds_int :
    max (512 : Int)
      (if (1000 : Int) = 0 ∨ (2147483600 : Int) % 1000 = 0 then 2147483600
       else 2147483600 + (1000 - 2147483600 % 1000)) = 2147484000 ∧
    ¬ ((2147484000 : Int) < 2147483648) ∧
    (Call.xiSetParamInt 1 .XI_PRM_ACQ_TRANSPORT_BUFFER_SIZE 512, 0)
      ∈ issued (attached xiApiValues (sampleBackend 0 2147483600 2147482647 1000 512) 1)
          (openCam xiApiValues (sampleConfig "XI_MONO8" 0 0 2048 1088 0)
            (sampleBackend 0 2147483600 2147482647 1000 512)
            (attached xiApiValues (sampleBackend 0 2147483600 2147482647 1000 512) 1)) :=
  ⟨by decide, by decide,
    (transport_write_issued xiApiValues (sampleConfig "XI_MONO8" 0 0 2048 1088 0)
      (sampleBackend 0 2147483600 2147482647 1000 512)
      (attached xiApiValues (sampleBackend 0 2147483600 2147482647 1000 512) 1)
      (by decide) 512 0).2 ⟨by decide, by decide, rfl⟩⟩

/-- C4 (amended): for a non-null handle and a backend reporting `payload ≥ 0`,
`default`, `increment ≥ 0` and `minimum`, where the rounded payload `r` does
not exceed `INT_MAX` (`r < 2^31`, no overflow at source line 510), every
transport buffer size that `openCam` writes equals `max(minimum, r)`, with
`r = payload` if `increment = 0` or `payload mod increment = 0`, and
`r = payload + (increment - payload mod increment)` otherwise; and for
payload 1000, default 900, increment 300, minimum 512 and an accepted ROI,
`openCam` writes 1200. -/
theorem transport_buffer_write_value (K : XiApi) (cfg : Config) (b : Backend) (s : State)
    (payload default increment minimum : Int) (hh : s.xi_h_ ≠ 0)
    (hpay : readInt b s.xi_h_ .XI_PRM_IMAGE_PAYLOAD_SIZE 0 = payload)
    (hdef : readInt b s.xi_h_ .XI_PRM_ACQ_TRANSPORT_BUFFER_SIZE 0 = default)
    (hinc : readInt b s.xi_h_ .XI_PRM_ACQ_TRANSPORT_BUFFER_SIZE_INFO_INCREMENT 0 = increment)
    (hmin : readInt b s.xi_h_ .XI_PRM_ACQ_TRANSPORT_BUFFER_SIZE_INFO_MIN 0 = minimum)
    (hp : 0 ≤ payload) (hi : 0 ≤ increment)
    (hr : roundedPayload payload increment < 2147483648) :
    (∀ v st, (Call.xiSetParamInt s.xi_h_ .XI_PRM_ACQ_TRANSPORT_BUFFER_SIZE v, st)
        ∈ issued s (openCam K cfg b s) →
      v = max minimum
        (if increment = 0 ∨ payload % increment = 0 then payload
         else payload + (increment - payload % increment))) ∧
    (roiRejected cfg = false → payload = 1000 → default = 900 → increment = 300 →
      minimum = 512 →
      ∃ st, (Call.xiSetParamInt s.xi_h_ .XI_PRM_ACQ_TRANSPORT_BUFFER_SIZE 1200, st)
        ∈ issued s (openCam K cfg b s)) := by
  have hbw := bufferWrite_eq b s.xi_h_ payload default increment minimum hpay hdef hinc hmin
  constructor
  · intro v st hw
    have h := ((transport_write_issued K cfg b s hh v st).1 hw).2.1
    rw [hbw, transportBufferWrite] at h
    split_ifs at h
    have hv : transportBufferSize payload increment minimum = v := Option.some.inj h
    rw [← hv, transportBufferSize_eq payload increment minimum hp hi hr, roundedPayload]
  · intro hroi h1 h2 h3 h4
    refine ⟨_, (transport_write_issued K cfg b s hh 1200 _).2 ⟨hroi, ?_, rfl⟩⟩
    rw [hbw, h1, h2, h3, h4]
    decide

/-- Witness of C4 (amended): payload 1000, default 900, increment 300,
minimum 512. -/
theorem transport_buffer_write_value_witness :
    roundedPayload 1000 300 < 2147483648 ∧
    (Call.xiSetParamInt 1 .XI_PRM_ACQ_TRANSPORT_BUFFER_SIZE 1200, 0)
      ∈ issued (attached xiApiValues (sampleBackend 0 1000 900 300 512) 1)
          (openCam xiApiValues (sampleConfig "XI_MONO8" 0 0 2048 1088 0)
            (sampleBackend 0 1000 900 300 512)
            (attached xiApiValues (sampleBackend 0 1000 900 300 512) 1)) ∧
    (1200 : Int) = max 512
      (if (300 : Int) = 0 ∨ (1000 : Int) % 300 = 0 then 1000 else 1000 + (300 - 1000 % 300)) := by
  have h := transport_buffer_write_value xiApiValues (sampleConfig "XI_MONO8" 0 0 2048 1088 0)
    (sampleBackend 0 1000 900 300 512) (attached xiApiValues (sampleBackend 0 1000 900 300 512) 1)
    1000 900 300 512 (by decide) rfl rfl rfl rfl (by decide) (by decide) (by decide)
  obtain ⟨st, hst⟩ := h.2 (by decide) rfl rfl rfl rfl
  have hst0 : st = 0 := ((transport_write_issued _ _ _ _ (by decide) _ _).1 hst).2.2
  subst hst0
  exact ⟨by decide, hst, h.1 1200 _ hst⟩

/-- Counterexample to C5: for payload 100, default 1024, increment 256 and minimum
300 the size `openCam` computes is 300, which is not a multiple of 256, so it
is not the least integer meeting the three constraints (that one is 512). -/
theorem buffer_size_not_least :
    transportBufferWrite 100 1024 256 300 = some 300 ∧
    ¬ IsLeast (bufferConstraints 100 256 300) 300 ∧
    IsLeast (bufferConstraints 100 256 300) 512 := by
  refine ⟨by decide, ?_, ?_, ?_⟩
  · intro h
    have h2 := h.1.2.1
    omega
  · exact ⟨by decide, Or.inr ⟨2, by decide⟩, by decide⟩
  · rintro n ⟨h1, h2, h3⟩
    rcases h2 with h2 | ⟨k, rfl⟩
    · omega
    · omega

/-- C5 (amended): for payload ≥ 0, increment ≥ 0 and
`payload < default + increment`, where `default + increment` is within the
range of `int` and the rounded payload `r` does not exceed `INT_MAX` (no
overflow at source lines 504 and 510), the size `openCam` computes is
`max(minimum, r)`, where `r` is the least integer that is at least the payload
and a multiple of the increment (unconstrained when the increment is zero);
this size is the least integer meeting the constraints (i), (ii) and (iii) if
and only if the increment is zero, or the minimum is a multiple of the
increment, or the minimum does not exceed `r`. -/
theorem buffer_size_round_then_clamp (payload default increment minimum : Int)
    (hp : 0 ≤ payload) (hi : 0 ≤ increment)
    (hlo : -2147483648 ≤ default + increment) (hhi : default + increment < 2147483648)
    (hr : roundedPayload payload increment < 2147483648)
    (hd : payload < default + increment) :
    transportBufferWrite payload default increment minimum
      = some (max minimum (roundedPayload payload increment)) ∧
    IsLeast {n | payload ≤ n ∧ (increment = 0 ∨ increment ∣ n)}
      (roundedPayload payload increment) ∧
    (IsLeast (bufferConstraints payload increment minimum)
        (max minimum (roundedPayload payload increment))
      ↔ (increment = 0 ∨ increment ∣ minimum ∨ minimum ≤ roundedPayload payload increment)) := by
  have hge := roundedPayload_ge payload increment hi
  have hal := roundedPayload_aligned payload increment
  refine ⟨?_, ⟨⟨hge, hal⟩, ?_⟩, ?_⟩
  · rw [transportBufferWrite, wrapInt32_eq _ hlo hhi, if_pos hd,
      transportBufferSize_eq payload increment minimum hp hi hr]
  · rintro n ⟨h1, h2⟩
    exact roundedPayload_least payload increment n hi h1 h2
  · constructor
    · intro h
      rcases h.1.2.1 with h0 | hdiv
      · exact Or.inl h0
      · by_cases hm : minimum ≤ roundedPayload payload increment
        · exact Or.inr (Or.inr hm)
        · rw [max_eq_left (le_of_lt (not_le.mp hm))] at hdiv
          exact Or.inr (Or.inl hdiv)
    · intro h
      refine ⟨⟨le_trans hge (le_max_right _ _), ?_, le_max_left _ _⟩, ?_⟩
      · by_cases hm : minimum ≤ roundedPayload payload increment
        · rw [max_eq_right hm]
          exact hal
        · rw [max_eq_left (le_of_lt (not_le.mp hm))]
          rcases h with h | h | h
          · exact Or.inl h
          · exact Or.inr h
          · exact absurd h hm
      · rintro n ⟨h1, h2, h3⟩
        exact max_le h3 (roundedPayload_least payload increment n hi h1 h2)

/-- Witness of C5 (amended): payload 1000, default 900, increment 300,
minimum 512. -/
theorem buffer_size_round_then_clamp_witness :
    transportBufferWrite 1000 900 300 512 = some (max 512 (roundedPayload 1000 300)) ∧
    IsLeast {n : Int | 1000 ≤ n ∧ ((300 : Int) = 0 ∨ (300 : Int) ∣ n)} (roundedPayload 1000 300) ∧
    (IsLeast (bufferConstraints 1000 300 512) (max 512 (roundedPayload 1000 300))
      ↔ ((300 : Int) = 0 ∨ (300 : Int) ∣ 512 ∨ 512 ≤ roundedPayload 1000 300)) :=
  buffer_size_round_then_clamp 1000 900 300 512 (by decide) (by decide) (by decide) (by decide)
    (by decide) (by decide)

/-- Counterexample to C6: with increment 256 and minimum 300, payload 100 gives
300, and the computation applied to 300 gives 512. -/
theorem buffer_size_not_idempotent :
    transportBufferSize 100 256 300 = 300 ∧
    transportBufferSize (transportBufferSize 100 256 300) 256 300 = 512 ∧
    transportBufferSize (transportBufferSize 100 256 300) 256 300
      ≠ transportBufferSize 100 256 300 := by
  decide

/-- C6 (amended): for payload ≥ 0, increment ≥ 0 and a minimum within the range
of `int`, where the rounded payload does not exceed `INT_MAX` (no overflow at
source line 510 in the first application): if rounding the first output does
not overflow either, applying the transport buffer size computation to its own
output, with the same increment and minimum, yields that output if and only if
the increment is zero or the output is a multiple of the increment; and the
computation is idempotent whenever the increment is zero or the minimum is a
multiple of the increment. -/
theorem buffer_size_idempotent_iff (payload increment minimum : Int)
    (hp : 0 ≤ payload) (hi : 0 ≤ increment) (hm : minimum < 2147483648)
    (hr : roundedPayload payload increment < 2147483648) :
    (roundedPayload (transportBufferSize payload increment minimum) increment < 2147483648 →
      (transportBufferSize (transportBufferSize payload increment minimum) increment minimum
          = transportBufferSize payload increment minimum
        ↔ (increment = 0 ∨ increment ∣ transportBufferSize payload increment minimum))) ∧
    ((increment = 0 ∨ increment ∣ minimum) →
      transportBufferSize (transportBufferSize payload increment minimum) increment minimum
        = transportBufferSize payload increment minimum) := by
  have hge := roundedPayload_ge payload increment hi
  have hal := roundedPayload_aligned payload increment
  have hE := transportBufferSize_eq payload increment minimum hp hi hr
  have ht0 : 0 ≤ transportBufferSize payload increment minimum := by
    rw [hE]
    exact le_trans (le_trans hp hge) (le_max_right _ _)
  have htm : minimum ≤ transportBufferSize payload increment minimum := by
    rw [hE]
    exact le_max_left _ _
  have htlt : transportBufferSize payload increment minimum < 2147483648 := by
    rw [hE]
    exact max_lt hm hr
  have hge2 := roundedPayload_ge (transportBufferSize payload increment minimum) increment hi
  have hiff : roundedPayload (transportBufferSize payload increment minimum) increment
        < 2147483648 →
      (transportBufferSize (transportBufferSize payload increment minimum) increment
        minimum = transportBufferSize payload increment minimum
      ↔ (increment = 0 ∨ increment ∣ transportBufferSize payload increment minimum)) := by
    intro hr2
    rw [transportBufferSize_eq (transportBufferSize payload increment minimum) increment
      minimum ht0 hi hr2, max_eq_right (le_trans htm hge2)]
    constructor
    · intro h
      have := roundedPayload_aligned (transportBufferSize payload increment minimum) increment
      rwa [h] at this
    · intro h
      exact le_antisymm
        (roundedPayload_least _ increment _ hi (le_refl _) h) hge2
  refine ⟨hiff, fun h => ?_⟩
  have haligned : increment = 0 ∨ increment ∣ transportBufferSize payload increment minimum := by
    rcases h with h | h
    · exact Or.inl h
    · rcases hal with h0 | hdiv
      · exact Or.inl h0
      · right
        rw [hE]
        rcases le_total minimum (roundedPayload payload increment) with hle | hle
        · rwa [max_eq_right hle]
        · rwa [max_eq_left hle]
  have hfix : roundedPayload (transportBufferSize payload increment minimum) increment
      = transportBufferSize payload increment minimum :=
    le_antisymm (roundedPayload_least _ increment _ hi (le_refl _) haligned) hge2
  exact (hiff (by rw [hfix]; exact htlt)).2 haligned

/-- Witness of C6 (amended): payload 1000, increment 300, minimum 600. -/
theorem buffer_size_idempotent_iff_witness :
    roundedPayload 1000 300 < 2147483648 ∧
    (300 : Int) ∣ 600 ∧
    transportBufferSize (transportBufferSize 1000 300 600) 300 600
      = transportBufferSize 1000 300 600 :=
  ⟨by decide, by decide,
    (buffer_size_idempotent_iff 1000 300 600 (by decide) (by decide) (by decide)
      (by decide)).2 (Or.inr (by decide))⟩

/-- Counterexample to C7: with payload 1000, default 900, increment 256 and
minimum 512 (and a full-frame ROI on camera model 0, handle 1), `openCam`
does write the transport buffer size, with the value 1024. -/
theorem scenario4_writes_buffer_size :
    (Call.xiSetParamInt 1 .XI_PRM_ACQ_TRANSPORT_BUFFER_SIZE 1024, 0)
      ∈ issued (attached xiApiValues (sampleBackend 0 1000 900 256 512) 1)
          (openCam xiApiValues (sampleConfig "XI_MONO8" 0 0 2048 1088 0)
            (sampleBackend 0 1000 900 256 512)
            (attached xiApiValues (sampleBackend 0 1000 900 256 512) 1)) :=
  (transport_write_issued xiApiValues (sampleConfig "XI_MONO8" 0 0 2048 1088 0)
    (sampleBackend 0 1000 900 256 512) (attached xiApiValues (sampleBackend 0 1000 900 256 512) 1)
    (by decide) 1024 0).2 ⟨by decide, by decide, rfl⟩

/-- C7 (amended): for a non-null handle and a backend reporting `payload`,
`default`, `increment` and `minimum`: when `default + increment` is within the
range of `int` (no overflow at source line 504) and the remainder of line 508
is not `INT_MIN % -1`, `openCam` issues no write of the transport buffer size
if and only if the ROI check rejects or `payload ≥ default + increment`; with
payload 1000, default 900, increment 256, minimum 512 and an accepted ROI,
`1000 < 900 + 256` and `openCam` issues exactly the write of the value 1024. -/
theorem transport_write_iff_payload_below (K : XiApi) (cfg : Config) (b : Backend) (s : State)
    (payload default increment minimum : Int) (hh : s.xi_h_ ≠ 0)
    (hpay : readInt b s.xi_h_ .XI_PRM_IMAGE_PAYLOAD_SIZE 0 = payload)
    (hdef : readInt b s.xi_h_ .XI_PRM_ACQ_TRANSPORT_BUFFER_SIZE 0 = default)
    (hinc : readInt b s.xi_h_ .XI_PRM_ACQ_TRANSPORT_BUFFER_SIZE_INFO_INCREMENT 0 = increment)
    (hmin : readInt b s.xi_h_ .XI_PRM_ACQ_TRANSPORT_BUFFER_SIZE_INFO_MIN 0 = minimum) :
    (-2147483648 ≤ default + increment → default + increment < 2147483648 →
      ¬ (payload = -2147483648 ∧ increment = -1) →
      ((∀ v st, (Call.xiSetParamInt s.xi_h_ .XI_PRM_ACQ_TRANSPORT_BUFFER_SIZE v, st)
          ∉ issued s (openCam K cfg b s))
        ↔ (roiRejected cfg = true ∨ default + increment ≤ payload))) ∧
    (roiRejected cfg = false → payload = 1000 → default = 900 → increment = 256 →
      minimum = 512 →
      ∀ v st, (Call.xiSetParamInt s.xi_h_ .XI_PRM_ACQ_TRANSPORT_BUFFER_SIZE v, st)
          ∈ issued s (openCam K cfg b s)
        ↔ (v = 1024 ∧ st = b.setParamInt s.xi_h_ .XI_PRM_ACQ_TRANSPORT_BUFFER_SIZE 1024)) := by
  have hbw := bufferWrite_eq b s.xi_h_ payload default increment minimum hpay hdef hinc hmin
  constructor
  · intro hlo hhi _
    constructor
    · intro h
      by_contra hc
      rw [not_or, Bool.not_eq_true, not_le] at hc
      refine h (transportBufferSize payload increment minimum) _
        ((transport_write_issued K cfg b s hh _ _).2 ⟨hc.1, ?_, rfl⟩)
      rw [hbw, transportBufferWrite, wrapInt32_eq _ hlo hhi, if_pos hc.2]
    · intro h v st hw
      have hw := (transport_write_issued K cfg b s hh v st).1 hw
      rcases h with h | h
      · rw [h] at hw
        exact Bool.noConfusion hw.1
      · have h2 := hw.2.1
        rw [hbw, transportBufferWrite, wrapInt32_eq _ hlo hhi, if_neg (not_lt.mpr h)] at h2
        exact Option.noConfusion h2
  · intro hr h1 h2 h3 h4 v st
    rw [transport_write_issued K cfg b s hh v st, hbw, h1, h2, h3, h4]
    have hv : transportBufferWrite 1000 900 256 512 = some 1024 := by decide
    rw [hv]
    constructor
    · rintro ⟨-, hv, hst⟩
      have hv : (1024 : Int) = v := Option.some.inj hv
      subst hv
      exact ⟨rfl, hst⟩
    · rintro ⟨rfl, hst⟩
      exact ⟨hr, rfl, hst⟩

/-- Witness of C7 (amended): payload 1000, default 900, increment 256,
minimum 512, a full-frame ROI on camera model 0, handle 1. -/
theorem transport_write_iff_payload_below_witness :
    ¬ (∀ v st, (Call.xiSetParamInt 1 .XI_PRM_ACQ_TRANSPORT_BUFFER_SIZE v, st)
        ∉ issued (attached xiApiValues (sampleBackend 0 1000 900 256 512) 1)
            (openCam xiApiValues (sampleConfig "XI_MONO8" 0 0 2048 1088 0)
              (sampleBackend 0 1000 900 256 512)
              (attached xiApiValues (sampleBackend 0 1000 900 256 512) 1))) := by
  have h := transport_write_iff_payload_below xiApiValues
    (sampleConfig "XI_MONO8" 0 0 2048 1088 0) (sampleBackend 0 1000 900 256 512)
    (attached xiApiValues (sampleBackend 0 1000 900 256 512) 1) 1000 900 256 512
    (by decide) rfl rfl rfl rfl
  intro hn
  have := (h.1 (by decide) (by decide) (by decide)).1 hn
  revert this
  decide

/-! ## Bandwidth -/

theorem bitLengthAux_zero (fuel : Nat) : bitLengthAux fuel 0 = 0 := by
  cases fuel <;> simp [bitLengthAux]

theorem bitLengthAux_spec (fuel : Nat) : ∀ n : Nat, n ≤ fuel →
    n < 2 ^ bitLengthAux fuel n ∧ (∀ k, n < 2 ^ k → bitLengthAux fuel n ≤ k) ∧
      (n ≠ 0 → 2 ^ (bitLengthAux fuel n - 1) ≤ n) := by
  induction fuel with
  | zero =>
    intro n hn
    have h0 : n = 0 := by omega
    subst h0
    simp [bitLengthAux]
  | succ fuel ih =>
    intro n hn
    by_cases h0 : n = 0
    · subst h0
      simp [bitLengthAux]
    · simp only [bitLengthAux, if_neg h0]
      obtain ⟨h1, h2, h3⟩ := ih (n / 2) (by omega)
      refine ⟨?_, ?_, ?_⟩
      · rw [pow_succ]
        omega
      · intro k hk
        cases k with
        | zero => simp at hk; omega
        | succ k =>
          rw [pow_succ] at hk
          have := h2 k (by omega)
          omega
      · intro _
        simp only [Nat.add_sub_cancel]
        by_cases hz : n / 2 = 0
        · rw [hz, bitLengthAux_zero]
          simp
          omega
        · have h4 := h3 hz
          have hpos : 0 < bitLengthAux fuel (n / 2) := by
            by_contra hc
            have hc : bitLengthAux fuel (n / 2) = 0 := by omega
            rw [hc] at h1
            simp at h1
            exact hz h1
          obtain ⟨t, ht⟩ : ∃ t, bitLengthAux fuel (n / 2) = t + 1 := ⟨_, (Nat.succ_pred_eq_of_pos hpos).symm⟩
          rw [ht] at h4 ⊢
          simp only [Nat.add_sub_cancel] at h4
          rw [pow_succ]
          omega

theorem lt_two_pow_bitLength (n : Nat) : n < 2 ^ bitLength n :=
  (bitLengthAux_spec n n (le_refl n)).1

theorem bitLength_le_of_lt (n k : Nat) (h : n < 2 ^ k) : bitLength n ≤ k :=
  (bitLengthAux_spec n n (le_refl n)).2.1 k h

theorem two_pow_bitLength_le (n : Nat) (h : n ≠ 0) : 2 ^ (bitLength n - 1) ≤ n :=
  (bitLengthAux_spec n n (le_refl n)).2.2 h

theorem roundHalfEven_ge (num den lo : Nat) (hd : 0 < den) (h : lo * den ≤ num) :
    lo ≤ roundHalfEven num den := by
  have hq : lo ≤ num / den := (Nat.le_div_iff_mul_le hd).2 h
  unfold roundHalfEven
  simp only
  split_ifs <;> omega

theorem roundHalfEven_le (num den hi : Nat) (hd : 0 < den) (h : num ≤ hi * den) :
    roundHalfEven num den ≤ hi := by
  have hdm := Nat.div_add_mod num den
  have hml := Nat.mod_lt num hd
  have hq : num / den ≤ hi := by
    by_contra hc
    have hc : hi + 1 ≤ num / den := by omega
    have := Nat.mul_le_mul_right den hc
    have h2 : num / den * den ≤ num := Nat.div_mul_le_self num den
    nlinarith
  have hq' : 0 < num % den → num / den + 1 ≤ hi := by
    intro hr
    by_contra hc
    have hc : num / den = hi := by omega
    rw [hc] at hdm
    nlinarith
  unfold roundHalfEven
  simp only
  split_ifs <;> omega

theorem roundHalfEven_one (n : Nat) : roundHalfEven n 1 = n := by
  simp [roundHalfEven, Nat.mod_one]

theorem Flt.round_exact (p : Nat) (x : Flt) (h : x.m.natAbs < 2 ^ p) : Flt.round p x = x := by
  have hb : bitLength (x.m.natAbs / 1) - p = 0 := by
    rw [Nat.div_one]
    have := bitLength_le_of_lt _ _ h
    omega
  obtain ⟨m, e⟩ := x
  simp only [Flt.round, roundQuot, hb, pow_zero, mul_one, roundHalfEven_one, Nat.cast_zero,
    add_zero, Int.sign_mul_natAbs]

theorem roundQuot_div (A N : Nat) (hA : A < 2 ^ 31) (hN : 0 < N) (hN' : N < 2 ^ 31) :
    (roundQuot 53 (A * 2 ^ (53 + bitLength N)) N).2 < 53 + bitLength N ∧
    (roundQuot 53 (A * 2 ^ (53 + bitLength N)) N).1
        / 2 ^ (53 + bitLength N - (roundQuot 53 (A * 2 ^ (53 + bitLength N)) N).2) = A / N := by
  have hB1 := lt_two_pow_bitLength N
  have hB2 := two_pow_bitLength_le N (by omega)
  have hBpos : 0 < bitLength N := by
    by_contra hc
    have hc : bitLength N = 0 := by omega
    rw [hc] at hB1
    simp at hB1
    omega
  obtain ⟨B, hB⟩ : ∃ B, bitLength N = B + 1 := ⟨_, (Nat.succ_pred_eq_of_pos hBpos).symm⟩
  rw [hB] at hB1 hB2 ⊢
  simp only [Nat.add_sub_cancel] at hB2
  -- the integer quotient has at most 85 bits
  have hQ : A * 2 ^ (53 + (B + 1)) / N < 2 ^ 85 := by
    have h1 : A * 2 ^ (53 + (B + 1)) / N * N ≤ A * 2 ^ (53 + (B + 1)) := Nat.div_mul_le_self _ _
    have h2 : A * 2 ^ (53 + (B + 1)) / N * 2 ^ B ≤ A * 2 ^ (53 + (B + 1)) / N * N :=
      Nat.mul_le_mul_left _ hB2
    have h3 : A * 2 ^ (53 + (B + 1)) < 2 ^ 31 * 2 ^ (53 + (B + 1)) :=
      Nat.mul_lt_mul_of_pos_right hA (by positivity)
    have h4 : (2 : Nat) ^ 31 * 2 ^ (53 + (B + 1)) = 2 ^ 85 * 2 ^ B := by
      rw [← pow_add, ← pow_add]
      congr 1
      omega
    have h5 : A * 2 ^ (53 + (B + 1)) / N * 2 ^ B < 2 ^ 85 * 2 ^ B := by omega
    exact Nat.lt_of_mul_lt_mul_right h5
  have hsh : bitLength (A * 2 ^ (53 + (B + 1)) / N) - 53 ≤ 32 := by
    have := bitLength_le_of_lt _ _ hQ
    omega
  simp only [roundQuot]
  generalize bitLength (A * 2 ^ (53 + (B + 1)) / N) - 53 = sh at hsh ⊢
  refine ⟨by omega, ?_⟩
  obtain ⟨j, hj⟩ : ∃ j, 53 + (B + 1) - sh = j + (B + 1) := ⟨21 + (32 - sh), by omega⟩
  have hk : 53 + (B + 1) = (j + (B + 1)) + sh := by omega
  rw [hj]
  have hpk : (2 : Nat) ^ (53 + (B + 1)) = 2 ^ (j + (B + 1)) * 2 ^ sh := by rw [hk, pow_add]
  have hjN : N < 2 ^ (j + (B + 1)) := by
    have : (2 : Nat) ^ (B + 1) ≤ 2 ^ (j + (B + 1)) := Nat.pow_le_pow_right (by norm_num) (by omega)
    omega
  have hden : 0 < N * 2 ^ sh := by positivity
  have hdiv1 : A / N * N ≤ A := Nat.div_mul_le_self A N
  have hdiv2 : A < (A / N + 1) * N := by
    have h1 := Nat.div_add_mod A N
    have h2 := Nat.mod_lt A hN
    nlinarith
  have hpj : 0 < (2 : Nat) ^ (j + (B + 1)) := by positivity
  have hps : 0 < (2 : Nat) ^ sh := by positivity
  rw [hpk]
  generalize (2 : Nat) ^ (j + (B + 1)) = J at hjN hpj ⊢
  generalize (2 : Nat) ^ sh = S at hden hps ⊢
  generalize hk0 : A / N = k0 at hdiv1 hdiv2 ⊢
  have hlo : k0 * J ≤ roundHalfEven (A * (J * S)) (N * S) := by
    apply roundHalfEven_ge _ _ _ hden
    have : k0 * J * (N * S) = (k0 * N) * (J * S) := by ring
    rw [this]
    exact Nat.mul_le_mul_right _ hdiv1
  have hhi : roundHalfEven (A * (J * S)) (N * S) ≤ (k0 + 1) * J - 1 := by
    apply roundHalfEven_le _ _ _ hden
    have h1 : (A + 1) * (J * S) ≤ ((k0 + 1) * N) * (J * S) := Nat.mul_le_mul_right _ hdiv2
    have h2 : N * S ≤ J * S := Nat.mul_le_mul_right _ (le_of_lt hjN)
    have h3 : 1 ≤ (k0 + 1) * J := by nlinarith
    have h4 : ((k0 + 1) * J - 1) * (N * S) = (k0 + 1) * J * (N * S) - N * S := by
      rw [Nat.sub_mul, one_mul]
    rw [h4]
    have h5 : (k0 + 1) * J * (N * S) = ((k0 + 1) * N) * (J * S) := by ring
    rw [h5]
    have h6 : (A + 1) * (J * S) = A * (J * S) + J * S := by ring
    omega
  apply Nat.div_eq_of_lt_le
  · exact hlo
  · have h3 : 1 ≤ (k0 + 1) * J := by nlinarith
    show roundHalfEven (A * (J * S)) (N * S) < (k0 + 1) * J
    omega

theorem Flt.toInt_neg_exp (m j : Nat) (hj : 0 < j) :
    Flt.toInt ⟨(m : Int), -(j : Int)⟩ = ((m / 2 ^ j : Nat) : Int) := by
  have he : ¬ (0 : Int) ≤ -(j : Int) := by omega
  simp only [Flt.toInt, if_neg he, neg_neg, Int.toNat_ofNat]
  rw [Int.tdiv_eq_ediv (by positivity) (by positivity)]
  norm_cast

theorem Flt.toInt_zero_mant (e : Int) : Flt.toInt ⟨0, e⟩ = 0 := by
  unfold Flt.toInt
  split_ifs
  · exact zero_mul _
  · exact Int.zero_tdiv _

theorem Flt.toInt32_eq (x : Flt) (h1 : -2147483648 ≤ x.toInt) (h2 : x.toInt < 2147483648) :
    x.toInt32 = x.toInt := by
  unfold Flt.toInt32
  rw [if_pos ⟨h1, h2⟩]

/-- The quotient of two `int` values computed in double precision and truncated
is the integer quotient. -/
theorem double_quotient_toInt (n a : Int) (ha : 0 ≤ a) (ha' : a < 2 ^ 31) (h : n > 1)
    (hn' : n < 2 ^ 31) :
    Flt.toInt (Flt.div 53 (Flt.ofInt 53 a) (Flt.ofInt 53 n)) = a / n := by
  · obtain ⟨A, rfl⟩ := Int.eq_ofNat_of_zero_le ha
    obtain ⟨N, rfl⟩ := Int.eq_ofNat_of_zero_le (show (0 : Int) ≤ n by omega)
    have hA : A < 2 ^ 31 := by exact_mod_cast ha'
    have hN : N < 2 ^ 31 := by exact_mod_cast hn'
    have hN0 : 0 < N := by omega
    have hA53 : (A : Int).natAbs < 2 ^ 53 := by
      rw [Int.natAbs_ofNat]
      exact lt_trans hA (by norm_num)
    have hN53 : (N : Int).natAbs < 2 ^ 53 := by
      rw [Int.natAbs_ofNat]
      exact lt_trans hN (by norm_num)
    rw [Flt.ofInt, Flt.ofInt, Flt.round_exact 53 ⟨(A : Int), 0⟩ hA53,
      Flt.round_exact 53 ⟨(N : Int), 0⟩ hN53]
    obtain ⟨hlt, hq⟩ := roundQuot_div A N hA hN0 hN
    simp only [Flt.div, Int.natAbs_ofNat]
    by_cases hA0 : A = 0
    · subst hA0
      simp only [Nat.cast_zero, Int.sign_zero, zero_mul, Flt.toInt_zero_mant, Int.zero_ediv]
    · have hsA : Int.sign (A : Int) = 1 := Int.sign_eq_one_of_pos (by omega)
      have hsN : Int.sign (N : Int) = 1 := Int.sign_eq_one_of_pos (by omega)
      rw [hsA, hsN]
      generalize roundQuot 53 (A * 2 ^ (53 + bitLength N)) N = r at hlt hq ⊢
      have hexp : (0 : Int) - 0 - ((53 + bitLength N : Nat) : Int) + (r.2 : Int)
          = -((53 + bitLength N - r.2 : Nat) : Int) := by omega
      have key := Flt.toInt_neg_exp r.1 (53 + bitLength N - r.2) (by omega)
      rw [hexp, one_mul, one_mul, key, hq]
      exact Int.natCast_div A N

theorem perCameraBandwidth_eq (n a : Int) (ha : 0 ≤ a) (ha' : a < 2 ^ 31) (hn' : n < 2 ^ 31) :
    perCameraBandwidth n a = if n > 1 then a / n else a := by
  unfold perCameraBandwidth
  split_ifs with h
  · have hq := double_quotient_toInt n a ha ha' h hn'
    have h0 : 0 ≤ a / n := Int.ediv_nonneg ha (by omega)
    have hle : a / n ≤ a := Int.ediv_le_self n ha
    rw [Flt.toInt32_eq _ (by rw [hq]; omega) (by rw [hq]; omega), hq]
  · rfl

theorem Flt.toInt_eq_floor (x : Flt) (h : 0 ≤ x.m) : x.toInt = ⌊x.toRat⌋ := by
  obtain ⟨m, e⟩ := x
  simp only at h
  unfold Flt.toInt Flt.toRat
  simp only
  split_ifs with he
  · obtain ⟨k, rfl⟩ := Int.eq_ofNat_of_zero_le he
    simp only [Int.toNat_ofNat, zpow_natCast]
    have : ((m : ℚ) * 2 ^ k) = ((m * 2 ^ k : Int) : ℚ) := by push_cast; ring
    rw [this, Int.floor_intCast]
  · obtain ⟨k, hk⟩ : ∃ k : Nat, e = -(k : Int) := ⟨(-e).toNat, by omega⟩
    subst hk
    simp only [neg_neg, Int.toNat_ofNat, zpow_neg, zpow_natCast]
    rw [Int.tdiv_eq_ediv h (by positivity)]
    have : (m : ℚ) * ((2 : ℚ) ^ k)⁻¹ = (m : ℚ) / ((2 ^ k : Nat) : ℚ) := by
      push_cast
      rw [div_eq_mul_inv]
    rw [this, Rat.floor_intCast_div_natCast]
    norm_cast

theorem bandwidthProduct_exact (pc : Int) (s : Flt) (hpc0 : 0 ≤ pc) (hpc : pc < 2 ^ 24)
    (hs : 0 ≤ s.m) (hprod : pc * s.m < 2 ^ 24) :
    bandwidthProduct pc s = ⌊(pc : ℚ) * s.toRat⌋ := by
  have h1 : (⟨pc, 0⟩ : Flt).m.natAbs < 2 ^ 24 := by
    simp only
    omega
  have hM : 0 ≤ pc * s.m := mul_nonneg hpc0 hs
  have h2 : (⟨pc * s.m, 0 + s.e⟩ : Flt).m.natAbs < 2 ^ 24 := by
    simp only
    omega
  unfold bandwidthProduct
  rw [Flt.ofInt, Flt.round_exact 24 _ h1, Flt.mul, Flt.round_exact 24 _ h2,
    Flt.toInt_eq_floor _ hM]
  congr 1
  simp only [Flt.toRat, zero_add]
  push_cast
  ring

theorem Flt.toInt_nonpos_exp (m t : Nat) :
    Flt.toInt ⟨(m : Int), -(t : Int)⟩ = ((m / 2 ^ t : Nat) : Int) := by
  by_cases ht : t = 0
  · subst ht
    simp [Flt.toInt]
  · exact Flt.toInt_neg_exp m t (by omega)

theorem Flt.toRat_nonpos_exp_floor (m k : Nat) :
    ⌊Flt.toRat ⟨(m : Int), -(k : Int)⟩⌋ = ((m / 2 ^ k : Nat) : Int) := by
  have h := Flt.toInt_eq_floor ⟨(m : Int), -(k : Int)⟩ (by simp)
  rw [← h, Flt.toInt_nonpos_exp]

/-- Rounding a significand `M ≥ 2^24` whose value `M * 2^e` is below `2^24`
moves the truncated value by at most one, upward. -/
theorem round24_trunc_bounds (M : Nat) (e : Int) (hM : 2 ^ 24 ≤ M)
    (hP : Flt.toRat ⟨(M : Int), e⟩ < 2 ^ 24) :
    ⌊Flt.toRat ⟨(M : Int), e⟩⌋ ≤ Flt.toInt (Flt.round 24 ⟨(M : Int), e⟩) ∧
    Flt.toInt (Flt.round 24 ⟨(M : Int), e⟩) ≤ ⌊Flt.toRat ⟨(M : Int), e⟩⌋ + 1 := by
  have hM0 : M ≠ 0 := by
    have : 0 < 2 ^ 24 := by norm_num
    omega
  have hb1 := lt_two_pow_bitLength M
  have hb2 := two_pow_bitLength_le M hM0
  have hb3 : 25 ≤ bitLength M := by
    by_contra hc
    have hc : bitLength M ≤ 24 := by omega
    have : (2 : Nat) ^ bitLength M ≤ 2 ^ 24 := Nat.pow_le_pow_right (by norm_num) hc
    omega
  obtain ⟨sh, hsh⟩ : ∃ sh, bitLength M = 25 + sh := ⟨bitLength M - 25, by omega⟩
  rw [hsh] at hb2
  have hb2 : 2 ^ (24 + sh) ≤ M := by
    have : 25 + sh - 1 = 24 + sh := by omega
    rwa [this] at hb2
  -- the exponent after rounding is not positive
  have hexp : e + (1 + sh : Nat) ≤ 0 := by
    by_contra hc
    have hc : -((sh : Int)) ≤ e := by push_cast at hc; omega
    have h1 : (2 : ℚ) ^ (-(sh : Int)) ≤ (2 : ℚ) ^ e := zpow_le_zpow_right₀ (by norm_num) hc
    have h2 : ((2 ^ (24 + sh) : Nat) : ℚ) ≤ (M : ℚ) := by exact_mod_cast hb2
    have h3 : (0 : ℚ) < (2 : ℚ) ^ (-(sh : Int)) := by positivity
    have h4 : ((2 ^ (24 + sh) : Nat) : ℚ) * (2 : ℚ) ^ (-(sh : Int)) = 2 ^ 24 := by
      push_cast
      rw [pow_add, zpow_neg, zpow_natCast, mul_assoc, mul_inv_cancel₀ (by positivity), mul_one]
    have h5 : (2 : ℚ) ^ 24 ≤ (M : ℚ) * (2 : ℚ) ^ e := by
      rw [← h4]
      exact mul_le_mul h2 h1 (le_of_lt h3) (by positivity)
    simp only [Flt.toRat, Int.cast_natCast] at hP
    exact absurd hP (not_lt.mpr h5)
  obtain ⟨t, ht⟩ : ∃ t : Nat, e = -((t + (1 + sh) : Nat) : Int) :=
    ⟨(-(e + (1 + sh : Nat))).toNat, by omega⟩
  subst ht
  have hr : Flt.round 24 ⟨(M : Int), -((t + (1 + sh) : Nat) : Int)⟩
      = ⟨((roundHalfEven M (2 ^ (1 + sh)) : Nat) : Int), -(t : Int)⟩ := by
    have hshift : bitLength (M / 1) - 24 = 1 + sh := by
      rw [Nat.div_one, hsh]
      omega
    simp only [Flt.round, roundQuot, Int.natAbs_ofNat, hshift, one_mul,
      Int.sign_eq_one_of_pos (show (0 : Int) < (M : Int) by omega)]
    congr 1
    push_cast
    omega
  rw [hr, Flt.toInt_nonpos_exp, Flt.toRat_nonpos_exp_floor]
  have hpt : 0 < 2 ^ t := by positivity
  have hps : 0 < 2 ^ (1 + sh) := by positivity
  have hpow : 2 ^ (t + (1 + sh)) = 2 ^ t * 2 ^ (1 + sh) := pow_add 2 t (1 + sh)
  have hF1 : M / 2 ^ (t + (1 + sh)) * 2 ^ (t + (1 + sh)) ≤ M := Nat.div_mul_le_self _ _
  have hF2 : M < (M / 2 ^ (t + (1 + sh)) + 1) * 2 ^ (t + (1 + sh)) := by
    have h1 := Nat.div_add_mod M (2 ^ (t + (1 + sh)))
    have h2 := Nat.mod_lt M (show 0 < 2 ^ (t + (1 + sh)) by positivity)
    nlinarith
  generalize M / 2 ^ (t + (1 + sh)) = F at hF1 hF2 ⊢
  rw [hpow] at hF1 hF2
  have hlo : F * 2 ^ t ≤ roundHalfEven M (2 ^ (1 + sh)) :=
    roundHalfEven_ge _ _ _ hps (by rw [mul_assoc]; exact hF1)
  have hhi : roundHalfEven M (2 ^ (1 + sh)) ≤ (F + 1) * 2 ^ t :=
    roundHalfEven_le _ _ _ hps (by rw [mul_assoc]; exact le_of_lt hF2)
  constructor
  · exact_mod_cast (Nat.le_div_iff_mul_le hpt).2 hlo
  · have : roundHalfEven M (2 ^ (1 + sh)) / 2 ^ t ≤ F + 1 :=
      Nat.div_le_of_le_mul (by rw [Nat.mul_comm]; exact hhi)
    exact_mod_cast this

theorem bandwidthProduct_bounds (pc : Int) (s : Flt) (hpc0 : 0 ≤ pc) (hpc : pc < 2 ^ 24)
    (hs : 0 ≤ s.m) (hP : (pc : ℚ) * s.toRat < 2 ^ 24) :
    ⌊(pc : ℚ) * s.toRat⌋ ≤ bandwidthProduct pc s ∧
    bandwidthProduct pc s ≤ ⌊(pc : ℚ) * s.toRat⌋ + 1 := by
  have h1 : (⟨pc, 0⟩ : Flt).m.natAbs < 2 ^ 24 := by
    simp only
    omega
  have hM : 0 ≤ pc * s.m := mul_nonneg hpc0 hs
  have hval : (pc : ℚ) * s.toRat = Flt.toRat ⟨pc * s.m, 0 + s.e⟩ := by
    simp only [Flt.toRat, zero_add]
    push_cast
    ring
  unfold bandwidthProduct
  rw [Flt.ofInt, Flt.round_exact 24 _ h1, Flt.mul]
  rw [hval] at hP ⊢
  simp only
  obtain ⟨M, hMeq⟩ := Int.eq_ofNat_of_zero_le hM
  rw [hMeq] at hP ⊢
  by_cases hsmall : M < 2 ^ 24
  · have h2 : (⟨(M : Int), 0 + s.e⟩ : Flt).m.natAbs < 2 ^ 24 := by
      simp only [Int.natAbs_ofNat]
      exact hsmall
    rw [Flt.round_exact 24 _ h2, Flt.toInt_eq_floor _ (by simp)]
    omega
  · exact round24_trunc_bounds M (0 + s.e) (not_lt.mp hsmall) hP

theorem Flt.round_m_nonneg (p : Nat) (x : Flt) (h : 0 ≤ x.m) : 0 ≤ (Flt.round p x).m := by
  simp only [Flt.round]
  exact mul_nonneg (Int.sign_nonneg.2 h) (Int.ofNat_nonneg _)

theorem bandwidthProduct_nonneg (pc : Int) (s : Flt) (hpc0 : 0 ≤ pc) (hs : 0 ≤ s.m) :
    0 ≤ bandwidthProduct pc s := by
  have h1 : 0 ≤ (Flt.ofInt 24 pc).m := Flt.round_m_nonneg 24 ⟨pc, 0⟩ hpc0
  have h2 : 0 ≤ (Flt.mul 24 (Flt.ofInt 24 pc) s).m :=
    Flt.round_m_nonneg 24 _ (mul_nonneg h1 hs)
  unfold bandwidthProduct
  rw [Flt.toInt_eq_floor _ h2]
  apply Int.floor_nonneg.2
  simp only [Flt.toRat]
  exact mul_nonneg (by exact_mod_cast h2) (by positivity)

/-- When the truncated product is within the range of `int`, it is the limit
written. -/
theorem bandwidthLimit_eq_product (pc : Int) (s : Flt) (h1 : -2147483648 ≤ bandwidthProduct pc s)
    (h2 : bandwidthProduct pc s < 2147483648) :
    bandwidthLimit pc s = bandwidthProduct pc s :=
  Flt.toInt32_eq _ h1 h2

theorem step_bufferCalls (b : Backend) (h : Nat) : ∀ c ∈ bufferCalls b h, c.step = 8 := by
  unfold bufferCalls
  cases bufferWrite b h <;> simp [Call.step, Param.step]

/-- The bandwidth limit write is among the calls of `openCam` exactly when the
ROI check accepts, with the value computed from the available bandwidth read. -/
theorem limit_write_mem (K : XiApi) (cfg : Config) (b : Backend) (h : Nat) (v : Int) :
    Call.xiSetParamInt h .XI_PRM_LIMIT_BANDWIDTH v ∈ openCamCalls K cfg b h
      ↔ roiRejected cfg = false ∧
        v = bandwidthLimit
          (perCameraBandwidth cfg.cam_num_in_bus_ (readInt b h .XI_PRM_AVAILABLE_BANDWIDTH 0))
          cfg.cam_bw_safetyratio_ := by
  have hstep : (Call.xiSetParamInt h .XI_PRM_LIMIT_BANDWIDTH v).step = 6 := rfl
  have hcfg : Call.xiSetParamInt h .XI_PRM_LIMIT_BANDWIDTH v ∉ configCalls K cfg h := by
    intro hm
    have := step_configCalls K cfg h _ hm
    omega
  have hroi : Call.xiSetParamInt h .XI_PRM_LIMIT_BANDWIDTH v ∉ roiCalls cfg h := by
    intro hm
    have := step_roiCalls cfg h _ hm
    omega
  have hfr : Call.xiSetParamInt h .XI_PRM_LIMIT_BANDWIDTH v ∉ framerateCalls K cfg h := by
    intro hm
    have := step_framerateCalls K cfg h _ hm
    omega
  have hbuf : Call.xiSetParamInt h .XI_PRM_LIMIT_BANDWIDTH v ∉ bufferCalls b h := by
    intro hm
    have := step_bufferCalls b h _ hm
    omega
  cases hr : roiRejected cfg with
  | true => simp [openCamCalls, hcfg, hr]
  | false =>
    simp [openCamCalls, acquisitionCalls, hcfg, hroi, hfr, hbuf, hr, bandwidthCalls]

theorem limit_write_issued (K : XiApi) (cfg : Config) (b : Backend) (s : State)
    (hh : s.xi_h_ ≠ 0) (v st : Int) :
    (Call.xiSetParamInt s.xi_h_ .XI_PRM_LIMIT_BANDWIDTH v, st) ∈ issued s (openCam K cfg b s)
      ↔ roiRejected cfg = false ∧
        v = bandwidthLimit
          (perCameraBandwidth cfg.cam_num_in_bus_
            (readInt b s.xi_h_ .XI_PRM_AVAILABLE_BANDWIDTH 0))
          cfg.cam_bw_safetyratio_ ∧
        st = b.setParamInt s.xi_h_ .XI_PRM_LIMIT_BANDWIDTH v := by
  rw [issued_openCam K cfg b s hh]
  constructor
  · intro hm
    have hc := (limit_write_mem K cfg b s.xi_h_ v).1 (mem_logOf hm)
    simp only [logOf, List.mem_map, Prod.mk.injEq] at hm
    obtain ⟨c, -, rfl, rfl⟩ := hm
    exact ⟨hc.1, hc.2, rfl⟩
  · rintro ⟨hr, hw, rfl⟩
    exact mem_logOf_of_mem ((limit_write_mem K cfg b s.xi_h_ v).2 ⟨hr, hw⟩)

/-- Counterexample to C8: with one camera on the bus and safety ratio 1.0, an
available bandwidth of 16777217 (`2^24 + 1`) is converted to the `float`
16777216, so the limit written is 16777216 and not `floor(16777217 * 1)`; and
with available bandwidth 10 and the `float` nearest to 0.7
(`11744051 * 2^-24`), the product rounds up to 7.0, so the limit written is 7
and not `floor(10 * s) = 6`. -/
theorem bandwidth_limit_not_floor :
    perCameraBandwidth 1 16777217 = 16777217 ∧
    bandwidthLimit (perCameraBandwidth 1 16777217) ⟨1, 0⟩ = 16777216 ∧
    ⌊((perCameraBandwidth 1 16777217 : Int) : ℚ) * Flt.toRat ⟨1, 0⟩⌋ = 16777217 ∧
    perCameraBandwidth 1 10 = 10 ∧
    bandwidthLimit (perCameraBandwidth 1 10) ⟨11744051, -24⟩ = 7 ∧
    ⌊((perCameraBandwidth 1 10 : Int) : ℚ) * Flt.toRat ⟨11744051, -24⟩⌋ = 6 := by
  have h1 : perCameraBandwidth 1 16777217 = 16777217 := by decide
  have h2 : perCameraBandwidth 1 10 = 10 := by decide
  refine ⟨h1, by decide, ?_, h2, by decide, ?_⟩
  · rw [h1, Int.floor_eq_iff]
    norm_num [Flt.toRat]
  · rw [h2, Int.floor_eq_iff]
    norm_num [Flt.toRat]

/-- C8 (amended): for a non-null handle, an accepted ROI, an available
bandwidth `0 ≤ a < 2^31` read from the backend, `cam_num_in_bus_ < 2^31` and a
safety ratio `s ≥ 0`: the per-camera bandwidth is `floor(a / cam_num_in_bus_)`
when `cam_num_in_bus_ > 1` and `a` otherwise; `openCam` writes one bandwidth
limit, and when the single-precision product `(float)perCamera * s`, truncated
toward zero, is below `2^31` (within the range of `int`), the limit written is
that truncated product; when `perCamera < 2^24` and `perCamera * s < 2^24` it
is `floor(perCamera * s)` or that value plus one, and it is exactly
`floor(perCamera * s)` when `perCamera` times the significand of `s` is below
`2^24`, so that no rounding takes place, and `floor(perCamera * s) < 2^31`. -/
theorem bandwidth_limit_single_precision (K : XiApi) (cfg : Config) (b : Backend) (s : State)
    (a : Int) (hh : s.xi_h_ ≠ 0) (hroi : roiRejected cfg = false)
    (hread : readInt b s.xi_h_ .XI_PRM_AVAILABLE_BANDWIDTH 0 = a)
    (ha : 0 ≤ a) (ha' : a < 2 ^ 31) (hn' : cfg.cam_num_in_bus_ < 2 ^ 31)
    (hs : 0 ≤ cfg.cam_bw_safetyratio_.m) :
    perCameraBandwidth cfg.cam_num_in_bus_ a
      = (if cfg.cam_num_in_bus_ > 1 then a / cfg.cam_num_in_bus_ else a) ∧
    (∀ v st, (Call.xiSetParamInt s.xi_h_ .XI_PRM_LIMIT_BANDWIDTH v, st)
        ∈ issued s (openCam K cfg b s)
      ↔ (v = bandwidthLimit (perCameraBandwidth cfg.cam_num_in_bus_ a) cfg.cam_bw_safetyratio_ ∧
         st = b.setParamInt s.xi_h_ .XI_PRM_LIMIT_BANDWIDTH v)) ∧
    (bandwidthProduct (perCameraBandwidth cfg.cam_num_in_bus_ a) cfg.cam_bw_safetyratio_
        < 2147483648 →
      bandwidthLimit (perCameraBandwidth cfg.cam_num_in_bus_ a) cfg.cam_bw_safetyratio_
        = bandwidthProduct (perCameraBandwidth cfg.cam_num_in_bus_ a)
            cfg.cam_bw_safetyratio_) ∧
    (perCameraBandwidth cfg.cam_num_in_bus_ a < 2 ^ 24 →
      ((perCameraBandwidth cfg.cam_num_in_bus_ a : Int) : ℚ) * cfg.cam_bw_safetyratio_.toRat
        < 2 ^ 24 →
      ⌊((perCameraBandwidth cfg.cam_num_in_bus_ a : Int) : ℚ) * cfg.cam_bw_safetyratio_.toRat⌋
          ≤ bandwidthLimit (perCameraBandwidth cfg.cam_num_in_bus_ a) cfg.cam_bw_safetyratio_ ∧
        bandwidthLimit (perCameraBandwidth cfg.cam_num_in_bus_ a) cfg.cam_bw_safetyratio_
          ≤ ⌊((perCameraBandwidth cfg.cam_num_in_bus_ a : Int) : ℚ)
              * cfg.cam_bw_safetyratio_.toRat⌋ + 1) ∧
    (perCameraBandwidth cfg.cam_num_in_bus_ a < 2 ^ 24 →
      perCameraBandwidth cfg.cam_num_in_bus_ a * cfg.cam_bw_safetyratio_.m < 2 ^ 24 →
      ⌊((perCameraBandwidth cfg.cam_num_in_bus_ a : Int) : ℚ) * cfg.cam_bw_safetyratio_.toRat⌋
        < 2147483648 →
      bandwidthLimit (perCameraBandwidth cfg.cam_num_in_bus_ a) cfg.cam_bw_safetyratio_
        = ⌊((perCameraBandwidth cfg.cam_num_in_bus_ a : Int) : ℚ)
            * cfg.cam_bw_safetyratio_.toRat⌋) := by
  have hpc := perCameraBandwidth_eq cfg.cam_num_in_bus_ a ha ha' hn'
  have hpc0 : 0 ≤ perCameraBandwidth cfg.cam_num_in_bus_ a := by
    rw [hpc]
    split_ifs with h
    · exact Int.ediv_nonneg ha (by omega)
    · exact ha
  have hprod0 := bandwidthProduct_nonneg (perCameraBandwidth cfg.cam_num_in_bus_ a)
    cfg.cam_bw_safetyratio_ hpc0 hs
  refine ⟨hpc, ?_, ?_, ?_, ?_⟩
  · intro v st
    rw [limit_write_issued K cfg b s hh v st, hread]
    constructor
    · rintro ⟨-, hv, hst⟩
      exact ⟨hv, hst⟩
    · rintro ⟨hv, hst⟩
      exact ⟨hroi, hv, hst⟩
  · intro hlt
    exact bandwidthLimit_eq_product _ _ (by omega) hlt
  · intro h24 hP
    have hb := bandwidthProduct_bounds _ _ hpc0 h24 hs hP
    have hfl : ⌊((perCameraBandwidth cfg.cam_num_in_bus_ a : Int) : ℚ)
        * cfg.cam_bw_safetyratio_.toRat⌋ < 2 ^ 24 := Int.floor_lt.2 (by exact_mod_cast hP)
    rw [bandwidthLimit_eq_product _ _ (by omega) (by omega)]
    exact hb
  · intro h24 hprod hfl
    have he := bandwidthProduct_exact _ _ hpc0 h24 hs hprod
    rw [bandwidthLimit_eq_product _ _ (by omega) (by omega)]
    exact he

/-- Witness of C8 (amended): available bandwidth 5000, two cameras on the bus,
safety ratio 0.5: the share is 2500 and the limit written is 1250. -/
theorem bandwidth_limit_single_precision_witness :
    perCameraBandwidth 2 5000 = 2500 ∧
    bandwidthProduct 2500 ⟨1, -1⟩ < 2147483648 ∧
    (Call.xiSetParamInt 1 .XI_PRM_LIMIT_BANDWIDTH 1250, 0)
      ∈ issued (attached xiApiValues (bandwidthBackend 5000) 1)
          (openCam xiApiValues (bandwidthConfig 2 ⟨1, -1⟩) (bandwidthBackend 5000)
            (attached xiApiValues (bandwidthBackend 5000) 1)) ∧
    bandwidthLimit 2500 ⟨1, -1⟩ = bandwidthProduct 2500 ⟨1, -1⟩ := by
  have h := bandwidth_limit_single_precision xiApiValues (bandwidthConfig 2 ⟨1, -1⟩)
    (bandwidthBackend 5000) (attached xiApiValues (bandwidthBackend 5000) 1) 5000
    (by decide) (by decide) rfl (by decide) (by decide) (by decide) (by decide)
  have e : perCameraBandwidth (bandwidthConfig 2 ⟨1, -1⟩).cam_num_in_bus_ 5000 = 2500 := by
    decide
  have e2 : bandwidthLimit 2500 (bandwidthConfig 2 ⟨1, -1⟩).cam_bw_safetyratio_ = 1250 := by
    decide
  obtain ⟨-, h2, h3, -, -⟩ := h
  rw [e] at h2 h3
  exact ⟨e, by decide, (h2 1250 0).2 ⟨e2.symm, rfl⟩, h3 (by decide)⟩

/-! ## Unknown format selectors -/

theorem mapIndex_missing {ν : Type} (dflt : ν) (m : List (String × ν)) (k : String)
    (h : k ∉ m.map Prod.fst) : mapIndex dflt m k = dflt := by
  have hl : m.lookup k = none := by
    induction m with
    | nil => rfl
    | cons x m ih =>
      simp only [List.map_cons, List.mem_cons, not_or] at h
      obtain ⟨k', v⟩ := x
      have hne : (k == k') = false := beq_eq_false_iff_ne.mpr h.1
      simp only [List.lookup, hne]
      exact ih h.2
  simp [mapIndex, hl]

/-- Counterexample to C9: the selector `"INVALID"`, the declared default of the
`format` parameter, is not a key of the table; `initCam` derives the format
code 0, 0 bytes per pixel and the empty encoding for it, and `openCam` (handle
1, full-frame ROI on camera model 0) writes 0 as the pixel format, starts the
acquisition and sets `is_active_`. -/
theorem unknown_format_is_configured :
    "INVALID" ∉ (ImgFormatMap xiApiValues).map Prod.fst ∧
    (sampleConfig "INVALID" 0 0 2048 1088 0).cam_format_int_ = 0 ∧
    (sampleConfig "INVALID" 0 0 2048 1088 0).cam_bytesperpixel_ = 0 ∧
    (sampleConfig "INVALID" 0 0 2048 1088 0).cam_encoding_ = "" ∧
    (Call.xiSetParamInt 1 .XI_PRM_IMAGE_DATA_FORMAT 0, 0)
      ∈ issued (attached xiApiValues (sampleBackend 0 1000 900 256 512) 1)
          (openCam xiApiValues (sampleConfig "INVALID" 0 0 2048 1088 0)
            (sampleBackend 0 1000 900 256 512)
            (attached xiApiValues (sampleBackend 0 1000 900 256 512) 1)) ∧
    (Call.xiStartAcquisition 1, 0)
      ∈ issued (attached xiApiValues (sampleBackend 0 1000 900 256 512) 1)
          (openCam xiApiValues (sampleConfig "INVALID" 0 0 2048 1088 0)
            (sampleBackend 0 1000 900 256 512)
            (attached xiApiValues (sampleBackend 0 1000 900 256 512) 1)) ∧
    (openCam xiApiValues (sampleConfig "INVALID" 0 0 2048 1088 0)
        (sampleBackend 0 1000 900 256 512)
        (attached xiApiValues (sampleBackend 0 1000 900 256 512) 1)).is_active_ = true := by
  have hr : roiRejected (sampleConfig "INVALID" 0 0 2048 1088 0) = false := by decide
  have hh : (attached xiApiValues (sampleBackend 0 1000 900 256 512) 1).xi_h_ ≠ 0 := by decide
  refine ⟨by decide, by decide, by decide, by decide, ?_, ?_, ?_⟩
  · rw [issued_openCam _ _ _ _ hh]
    exact @mem_logOf_of_mem (sampleBackend 0 1000 900 256 512) _
      (Call.xiSetParamInt 1 .XI_PRM_IMAGE_DATA_FORMAT 0)
      (by simp [openCamCalls, configCalls, attached]; left; decide)
  · rw [issued_openCam _ _ _ _ hh]
    exact @mem_logOf_of_mem (sampleBackend 0 1000 900 256 512) _ _
      ((start_mem_openCamCalls _ _ _ _).2 hr)
  · rw [openCam_is_active _ _ _ _ hh, hr]
    rfl

/-- C9 (amended): for every format selector that is not one of the seven keys
of the lookup table, `initCam` does not reject it but derives the
value-initialised triple (format code 0, 0 bytes per pixel, empty encoding);
`openCam`, run with a non-null handle, then writes 0 as the pixel format as its
first call and, when the ROI check accepts, starts the acquisition and sets
`is_active_`. -/
theorem unknown_format_defaults (K : XiApi) (p : Params) (cam_model_ : Int)
    (hfmt : p.cam_format_ ∉ (ImgFormatMap K).map Prod.fst) :
    (initCam K p cam_model_).cam_format_int_ = 0 ∧
    (initCam K p cam_model_).cam_bytesperpixel_ = 0 ∧
    (initCam K p cam_model_).cam_encoding_ = "" ∧
    ∀ (b : Backend) (s : State), s.xi_h_ ≠ 0 →
      (issued s (openCam K (initCam K p cam_model_) b s)).head?
        = some (Call.xiSetParamInt s.xi_h_ .XI_PRM_IMAGE_DATA_FORMAT 0,
            b.setParamInt s.xi_h_ .XI_PRM_IMAGE_DATA_FORMAT 0) ∧
      (roiRejected (initCam K p cam_model_) = false →
        (∃ st, (Call.xiStartAcquisition s.xi_h_, st)
          ∈ issued s (openCam K (initCam K p cam_model_) b s)) ∧
        (openCam K (initCam K p cam_model_) b s).is_active_ = true) := by
  have h1 : (initCam K p cam_model_).cam_format_int_ = 0 :=
    mapIndex_missing 0 (ImgFormatMap K) p.cam_format_ hfmt
  have h2 : (initCam K p cam_model_).cam_bytesperpixel_ = 0 :=
    mapIndex_missing 0 BytesPerPixelMap p.cam_format_ hfmt
  have h3 : (initCam K p cam_model_).cam_encoding_ = "" :=
    mapIndex_missing "" ImgEncodingMap p.cam_format_ hfmt
  refine ⟨h1, h2, h3, fun b s hh => ⟨?_, fun hr => ⟨?_, ?_⟩⟩⟩
  · rw [issued_openCam _ _ _ _ hh]
    simp [openCamCalls, configCalls, logOf, answer, h1]
  · rw [issued_openCam _ _ _ _ hh]
    exact ⟨_, mem_logOf_of_mem ((start_mem_openCamCalls _ _ _ _).2 hr)⟩
  · rw [openCam_is_active _ _ _ _ hh, hr]
    rfl

/-- Witness of C9 (amended): the declared default selector `"INVALID"`. -/
theorem unknown_format_defaults_witness :
    Params.declared.cam_format_ ∉ (ImgFormatMap xiApiValues).map Prod.fst ∧
    (initCam xiApiValues Params.declared 0).cam_format_int_ = 0 ∧
    (initCam xiApiValues Params.declared 0).cam_bytesperpixel_ = 0 ∧
    (initCam xiApiValues Params.declared 0).cam_encoding_ = "" :=
  have h := unknown_format_defaults xiApiValues Params.declared 0 (by decide)
  ⟨by decide, h.1, h.2.1, h.2.2.1⟩

/-! ## Lifecycle -/

theorem requestsFrame_append_open (l : List (Call × Int)) (serial : String) (st : Int)
    (h : ¬ requestsFrame l) : ¬ requestsFrame (l ++ [(Call.xiOpenDeviceBy serial, st)]) := by
  rintro ⟨h', t, st', hm⟩
  simp only [List.mem_append, List.mem_singleton, Prod.mk.injEq] at hm
  rcases hm with hm | ⟨hc, -⟩
  · exact h ⟨h', t, st', hm⟩
  · exact Call.noConfusion hc

/-- A tick or a failed poll keeps the node inactive, without any frame request
or publication. -/
theorem step_noAttach (K : XiApi) (cfg : Config) (b : Backend) (s : State) (e : Event)
    (he : e.noAttach K s)
    (hinv : s.is_active_ = false ∧ ¬ requestsFrame s.calls ∧ s.published = []) :
    (step K cfg b s e).is_active_ = false ∧ ¬ requestsFrame (step K cfg b s e).calls ∧
      (step K cfg b s e).published = [] := by
  cases e with
  | tick a =>
    simp only [step, frameCaptureCb_inactive K cfg a s hinv.1, ite_self]
    exact hinv
  | poll a =>
    simp only [step]
    split_ifs with ht
    · simp only [Event.noAttach] at he
      simp only [openDeviceCb, if_neg he]
      exact ⟨hinv.1, requestsFrame_append_open _ _ _ hinv.2.1, hinv.2.2⟩
    · exact hinv

theorem run_noAttach (K : XiApi) (cfg : Config) (b : Backend) (evs : List Event) :
    ∀ s : State, noAttachRun K cfg b s evs →
      (s.is_active_ = false ∧ ¬ requestsFrame s.calls ∧ s.published = []) →
      (run K cfg b s evs).is_active_ = false ∧ ¬ requestsFrame (run K cfg b s evs).calls ∧
        (run K cfg b s evs).published = [] := by
  induction evs with
  | nil => intro s _ hinv; exact hinv
  | cons e es ih =>
    intro s hrun hinv
    simp only [run, List.foldl_cons]
    exact ih (step K cfg b s e) hrun.2 (step_noAttach K cfg b s e hrun.1 hinv)

/-- The only step that activates the node is a poll handled while the poll
timer exists, with status `XI_OK`, a non-null handle after the call, and a
configuration whose ROI check accepts. -/
theorem step_activates (K : XiApi) (cfg : Config) (b : Backend) (s : State) (e : Event)
    (hact : s.is_active_ = false) (h : (step K cfg b s e).is_active_ = true) :
    ∃ a, e = Event.poll a ∧ s.xi_open_device_cb_ = true ∧ a.stat = K.XI_OK ∧
      a.handle.getD s.xi_h_ ≠ 0 ∧ roiRejected cfg = false := by
  cases e with
  | tick a =>
    simp only [step, frameCaptureCb_inactive K cfg a s hact, ite_self] at h
    rw [hact] at h
    exact Bool.noConfusion h
  | poll a =>
    simp only [step] at h
    split_ifs at h with ht
    · simp only [openDeviceCb] at h
      split_ifs at h with hok
      · refine ⟨a, rfl, ht, hok.1, hok.2, ?_⟩
        rw [openCam_is_active K cfg b _ hok.2] at h
        cases hr : roiRejected cfg with
        | false => rfl
        | true =>
          rw [hr, if_pos rfl] at h
          rw [hact] at h
          exact Bool.noConfusion h
      · rw [hact] at h
        exact Bool.noConfusion h
    · rw [hact] at h
      exact Bool.noConfusion h

theorem openCam_timer (K : XiApi) (cfg : Config) (b : Backend) (s : State) :
    (openCam K cfg b s).xi_open_device_cb_ = s.xi_open_device_cb_ := by
  by_cases hh : s.xi_h_ = 0
  · simp [openCam, hh]
  · rw [openCam_eq K cfg b s hh]
    split_ifs <;> rfl

/-- While the poll timer exists the node is not active: this is preserved by
every callback, so `openCam`, which `openDeviceCb` calls only while the timer
exists, always starts from `is_active_ = false`. -/
theorem step_timer_inactive (K : XiApi) (cfg : Config) (b : Backend) (s : State) (e : Event)
    (hinv : s.xi_open_device_cb_ = true → s.is_active_ = false) :
    (step K cfg b s e).xi_open_device_cb_ = true → (step K cfg b s e).is_active_ = false := by
  cases e with
  | tick a =>
    simp only [step, frameCaptureCb]
    split_ifs <;> exact hinv
  | poll a =>
    simp only [step]
    split_ifs with ht
    · simp only [openDeviceCb]
      split_ifs with hok
      · intro h
        rw [openCam_timer] at h
        exact Bool.noConfusion h
      · exact hinv
    · exact hinv

theorem run_timer_inactive (K : XiApi) (cfg : Config) (b : Backend) (evs : List Event) :
    ∀ s : State, (s.xi_open_device_cb_ = true → s.is_active_ = false) →
      (run K cfg b s evs).xi_open_device_cb_ = true → (run K cfg b s evs).is_active_ = false := by
  induction evs with
  | nil => intro s h; exact h
  | cons e es ih =>
    intro s h
    simp only [run, List.foldl_cons]
    exact ih (step K cfg b s e) (step_timer_inactive K cfg b s e h)

theorem reachable_timer_inactive (K : XiApi) (cfg : Config) (b : Backend) (evs : List Event) :
    (run K cfg b (construct K b) evs).xi_open_device_cb_ = true →
      (run K cfg b (construct K b) evs).is_active_ = false :=
  run_timer_inactive K cfg b evs (construct K b) (fun _ => rfl)

/-- C10: starting from the freshly constructed node, after every finite
sequence of capture ticks and failed attachment polls `is_active_` is false, no
frame has been requested from the backend and nothing has been published; and
in any state a step makes `is_active_` true only if it is a poll, handled while
the poll timer exists, that returns `XI_OK` with a non-null handle and whose
configuration pass gets through the ROI check. -/
theorem failed_polls_never_acquire (K : XiApi) (cfg : Config) (b : Backend) (evs : List Event)
    (hevs : noAttachRun K cfg b (construct K b) evs) :
    (run K cfg b (construct K b) evs).is_active_ = false ∧
    ¬ requestsFrame (run K cfg b (construct K b) evs).calls ∧
    (run K cfg b (construct K b) evs).published = [] ∧
    ∀ (s : State) (e : Event), s.is_active_ = false →
      (step K cfg b s e).is_active_ = true →
      ∃ a, e = Event.poll a ∧ s.xi_open_device_cb_ = true ∧ a.stat = K.XI_OK ∧
        a.handle.getD s.xi_h_ ≠ 0 ∧ roiRejected cfg = false := by
  have hinit : (construct K b).is_active_ = false ∧ ¬ requestsFrame (construct K b).calls ∧
      (construct K b).published = [] := by
    refine ⟨rfl, ?_, rfl⟩
    rintro ⟨h, t, st, hm⟩
    simp only [construct, List.mem_singleton, Prod.mk.injEq] at hm
    exact Call.noConfusion hm.1
  have h := run_noAttach K cfg b evs (construct K b) hevs hinit
  exact ⟨h.1, h.2.1, h.2.2, fun s e => step_activates K cfg b s e⟩

/-- Witness of C10: a poll that reports an error, a capture tick, and a poll
that returns `XI_OK` but leaves the handle null. -/
theorem failed_polls_never_acquire_witness :
    noAttachRun xiApiValues (sampleConfig "XI_MONO8" 0 0 2048 1088 0)
      (sampleBackend 0 1000 900 256 512)
      (construct xiApiValues (sampleBackend 0 1000 900 256 512))
      [Event.poll ⟨-1, none⟩, Event.tick ⟨0, 2048, 1088, 7⟩, Event.poll ⟨0, none⟩] ∧
    (run xiApiValues (sampleConfig "XI_MONO8" 0 0 2048 1088 0)
      (sampleBackend 0 1000 900 256 512)
      (construct xiApiValues (sampleBackend 0 1000 900 256 512))
      [Event.poll ⟨-1, none⟩, Event.tick ⟨0, 2048, 1088, 7⟩, Event.poll ⟨0, none⟩]).is_active_
        = false := by
  have hevs : noAttachRun xiApiValues (sampleConfig "XI_MONO8" 0 0 2048 1088 0)
      (sampleBackend 0 1000 900 256 512)
      (construct xiApiValues (sampleBackend 0 1000 900 256 512))
      [Event.poll ⟨-1, none⟩, Event.tick ⟨0, 2048, 1088, 7⟩, Event.poll ⟨0, none⟩] := by
    simp [noAttachRun, Event.noAttach, step, openDeviceCb, frameCaptureCb, construct,
      xiApiValues]
  exact ⟨hevs, (failed_polls_never_acquire _ _ _ _ hevs).1⟩

/-! ## Teardown -/

theorem destructStates_last (stop close : Int) (s : State) :
    (destructStates stop close s).getLastD s = destruct stop close s := by
  unfold destructStates destruct
  split_ifs <;> rfl

/-- C11: for every state in which a device handle exists and every pair of
statuses returned by stop-acquisition and close-device, the destructor passes
through four states: first `is_active_` is false with no backend call issued,
then `xiStopAcquisition` has been issued on the handle, then `xiCloseDevice`
has been issued on the handle, which is still set, and only then the handle is
null; it ends not active with a null handle, having issued the stop call and
then the close call, each exactly once. -/
theorem teardown_reaches_closed (stop close : Int) (s : State) (hh : s.xi_h_ ≠ 0) :
    ∃ s1 s2 s3 : State,
      destructStates stop close s = [s1, s2, s3, destruct stop close s] ∧
      s1.is_active_ = false ∧ issued s s1 = [] ∧ s1.xi_h_ = s.xi_h_ ∧
      s2.is_active_ = false ∧ issued s1 s2 = [(Call.xiStopAcquisition s.xi_h_, stop)] ∧
      s2.xi_h_ = s.xi_h_ ∧
      s3.is_active_ = false ∧ issued s2 s3 = [(Call.xiCloseDevice s.xi_h_, close)] ∧
      s3.xi_h_ = s.xi_h_ ∧
      issued s3 (destruct stop close s) = [] ∧
      (destruct stop close s).is_active_ = false ∧ (destruct stop close s).xi_h_ = 0 ∧
      issued s (destruct stop close s)
        = [(Call.xiStopAcquisition s.xi_h_, stop), (Call.xiCloseDevice s.xi_h_, close)] := by
  refine ⟨{ s with is_active_ := false },
    { s with is_active_ := false,
             calls := s.calls ++ [(Call.xiStopAcquisition s.xi_h_, stop)] },
    { s with is_active_ := false,
             calls := s.calls ++ [(Call.xiStopAcquisition s.xi_h_, stop)]
               ++ [(Call.xiCloseDevice s.xi_h_, close)] }, ?_⟩
  simp [destructStates, destruct, hh, issued]

/-- Witness of C11: an acquiring node with handle 1, a failing stop (status -1)
and a failing close (status -2). -/
theorem teardown_reaches_closed_witness :
    (acquiring xiApiValues (sampleBackend 0 1000 900 256 512) 1).xi_h_ ≠ 0 ∧
    (destruct (-1) (-2) (acquiring xiApiValues (sampleBackend 0 1000 900 256 512) 1)).is_active_
      = false ∧
    (destruct (-1) (-2) (acquiring xiApiValues (sampleBackend 0 1000 900 256 512) 1)).xi_h_ = 0 ∧
    issued (acquiring xiApiValues (sampleBackend 0 1000 900 256 512) 1)
        (destruct (-1) (-2) (acquiring xiApiValues (sampleBackend 0 1000 900 256 512) 1))
      = [(Call.xiStopAcquisition 1, -1), (Call.xiCloseDevice 1, -2)] := by
  obtain ⟨s1, s2, s3, -, -, -, -, -, -, -, -, -, -, -, h1, h2, h3⟩ :=
    teardown_reaches_closed (-1) (-2)
      (acquiring xiApiValues (sampleBackend 0 1000 900 256 512) 1) (by decide)
  exact ⟨by decide, h1, h2, h3⟩

/-! ## Timing mode and capture tick -/

/-- A call of step 7 is among the calls of `openCam` exactly when the ROI check
accepts and it is one of the frame-rate calls. -/
theorem step7_mem (K : XiApi) (cfg : Config) (b : Backend) (h : Nat) (c : Call)
    (hc : c.step = 7) :
    c ∈ openCamCalls K cfg b h ↔ roiRejected cfg = false ∧ c ∈ framerateCalls K cfg h := by
  have hcfg : c ∉ configCalls K cfg h := by
    intro hm
    have := step_configCalls K cfg h _ hm
    omega
  have hroi : c ∉ roiCalls cfg h := by
    intro hm
    have := step_roiCalls cfg h _ hm
    omega
  have hbw : c ∉ bandwidthCalls K cfg b h := by
    intro hm
    have := step_bandwidthCalls K cfg b h _ hm
    omega
  have hbuf : c ∉ bufferCalls b h := by
    intro hm
    have := step_bufferCalls b h _ hm
    omega
  have hst : c ≠ Call.xiStartAcquisition h := by
    intro he
    rw [he] at hc
    simp [Call.step] at hc
  cases hr : roiRejected cfg with
  | true => simp [openCamCalls, hcfg, hr]
  | false => simp [openCamCalls, acquisitionCalls, hcfg, hroi, hbw, hbuf, hst, hr]

theorem step7_issued (K : XiApi) (cfg : Config) (b : Backend) (s : State)
    (hh : s.xi_h_ ≠ 0) (c : Call) (st : Int) (hc : c.step = 7) :
    (c, st) ∈ issued s (openCam K cfg b s)
      ↔ roiRejected cfg = false ∧ c ∈ framerateCalls K cfg s.xi_h_ ∧ st = answer b c := by
  rw [issued_openCam K cfg b s hh]
  constructor
  · intro hm
    have hmem := (step7_mem K cfg b s.xi_h_ c hc).1 (mem_logOf hm)
    simp only [logOf, List.mem_map, Prod.mk.injEq] at hm
    obtain ⟨d, -, rfl, rfl⟩ := hm
    exact ⟨hmem.1, hmem.2, rfl⟩
  · rintro ⟨hr, hm, rfl⟩
    exact mem_logOf_of_mem ((step7_mem K cfg b s.xi_h_ c hc).2 ⟨hr, hm⟩)

/-- Counterexample to C12: with the HardwareEdge trigger mode (2) and an
accepted ROI, `openCam` (handle 1) writes no timing mode at all, so it does not
select the free-run timing mode. -/
theorem trigger_mode_writes_no_timing_mode :
    roiRejected (triggerConfig 2 false 30) = false ∧
    ∀ v st, (Call.xiSetParamInt 1 .XI_PRM_ACQ_TIMING_MODE v, st)
      ∉ issued (attached xiApiValues (sampleBackend 0 1000 900 256 512) 1)
          (openCam xiApiValues (triggerConfig 2 false 30) (sampleBackend 0 1000 900 256 512)
            (attached xiApiValues (sampleBackend 0 1000 900 256 512) 1)) := by
  refine ⟨by decide, fun v st hm => ?_⟩
  have h := ((step7_issued xiApiValues (triggerConfig 2 false 30)
    (sampleBackend 0 1000 900 256 512) (attached xiApiValues (sampleBackend 0 1000 900 256 512) 1)
    (by decide) (Call.xiSetParamInt 1 .XI_PRM_ACQ_TIMING_MODE v) st rfl).1 hm).2.1
  have htm : (triggerConfig 2 false 30).cam_trigger_mode_ ≠ 0 := by decide
  simp [framerateCalls, htm] at h

/-- C12 (amended): for every configuration that passes the ROI check and every
non-null handle: `openCam` writes a timing mode only when `cam_trigger_mode_`
is 0 (Off), and then it writes the frame-rate timing mode, followed by the
target rate, if frame-rate control is requested, and the free-run timing mode
if it is not; when `cam_trigger_mode_` is not 0 (HardwareEdge, Software or any
other value) it writes neither a timing mode nor a frame rate. -/
theorem timing_mode_only_without_trigger (K : XiApi) (cfg : Config) (b : Backend) (s : State)
    (hh : s.xi_h_ ≠ 0) (hroi : roiRejected cfg = false) :
    (∀ v st, (Call.xiSetParamInt s.xi_h_ .XI_PRM_ACQ_TIMING_MODE v, st)
        ∈ issued s (openCam K cfg b s)
      ↔ (cfg.cam_trigger_mode_ = 0 ∧
          v = (if cfg.cam_framerate_control_ = true then K.XI_ACQ_TIMING_MODE_FRAME_RATE
               else K.XI_ACQ_TIMING_MODE_FREE_RUN) ∧
          st = b.setParamInt s.xi_h_ .XI_PRM_ACQ_TIMING_MODE v)) ∧
    (∀ v st, (Call.xiSetParamInt s.xi_h_ .XI_PRM_FRAMERATE v, st)
        ∈ issued s (openCam K cfg b s)
      ↔ (cfg.cam_trigger_mode_ = 0 ∧ cfg.cam_framerate_control_ = true ∧
          v = cfg.cam_framerate_set_ ∧
          st = b.setParamInt s.xi_h_ .XI_PRM_FRAMERATE v)) := by
  constructor
  · intro v st
    rw [step7_issued K cfg b s hh (Call.xiSetParamInt s.xi_h_ .XI_PRM_ACQ_TIMING_MODE v) st rfl]
    simp only [hroi, true_and, answer]
    unfold framerateCalls
    by_cases ht : cfg.cam_trigger_mode_ = 0 <;> cases hc : cfg.cam_framerate_control_ <;>
      simp [ht, eq_comm]
  · intro v st
    rw [step7_issued K cfg b s hh (Call.xiSetParamInt s.xi_h_ .XI_PRM_FRAMERATE v) st rfl]
    simp only [hroi, true_and, answer]
    unfold framerateCalls
    by_cases ht : cfg.cam_trigger_mode_ = 0 <;> cases hc : cfg.cam_framerate_control_ <;>
      simp [ht, eq_comm]


/-- Witness of C12 (amended): trigger mode Off, frame-rate control requested
with target rate 30: the frame-rate timing mode and the rate 30 are written. -/
theorem timing_mode_only_without_trigger_witness :
    roiRejected (triggerConfig 0 true 30) = false ∧
    (Call.xiSetParamInt 1 .XI_PRM_ACQ_TIMING_MODE 1, 0)
      ∈ issued (attached xiApiValues (sampleBackend 0 1000 900 256 512) 1)
          (openCam xiApiValues (triggerConfig 0 true 30) (sampleBackend 0 1000 900 256 512)
            (attached xiApiValues (sampleBackend 0 1000 900 256 512) 1)) ∧
    (Call.xiSetParamInt 1 .XI_PRM_FRAMERATE 30, 0)
      ∈ issued (attached xiApiValues (sampleBackend 0 1000 900 256 512) 1)
          (openCam xiApiValues (triggerConfig 0 true 30) (sampleBackend 0 1000 900 256 512)
            (attached xiApiValues (sampleBackend 0 1000 900 256 512) 1)) := by
  have h := timing_mode_only_without_trigger xiApiValues (triggerConfig 0 true 30)
    (sampleBackend 0 1000 900 256 512) (attached xiApiValues (sampleBackend 0 1000 900 256 512) 1)
    (by decide) (by decide)
  exact ⟨by decide, (h.1 1 0).2 ⟨rfl, rfl, rfl⟩, (h.2 30 0).2 ⟨rfl, rfl, rfl, rfl⟩⟩

/-- C13: for every capture tick: the frame requests of the tick are exactly one
`xiGetImage` on the handle with the configured capture timeout if `is_active_`
is true, and none otherwise; the tick publishes if and only if `is_active_` is
true and the request returned `XI_OK`, and then it publishes exactly one image,
resized to 640 by 512, with camera-info width 640 and height 512; for any other
status nothing is published; `is_active_` and the handle are unchanged. -/
theorem capture_tick_publishes_iff_ok (K : XiApi) (cfg : Config) (a : ImageAnswer) (s : State) :
    issued s (frameCaptureCb K cfg a s)
      = (if s.is_active_ = true then
          [(Call.xiGetImage s.xi_h_ cfg.cam_img_cap_timeout_, a.stat)] else []) ∧
    (publishedBy s (frameCaptureCb K cfg a s) ≠ [] ↔ (s.is_active_ = true ∧ a.stat = K.XI_OK)) ∧
    (s.is_active_ = true → a.stat = K.XI_OK →
      ∃ p, publishedBy s (frameCaptureCb K cfg a s) = [p] ∧
        p.img_width = 640 ∧ p.img_height = 512 ∧ p.info_width = 640 ∧ p.info_height = 512) ∧
    (a.stat ≠ K.XI_OK → publishedBy s (frameCaptureCb K cfg a s) = []) ∧
    (frameCaptureCb K cfg a s).is_active_ = s.is_active_ ∧
    (frameCaptureCb K cfg a s).xi_h_ = s.xi_h_ := by
  unfold frameCaptureCb
  cases hact : s.is_active_ <;> by_cases hok : a.stat = K.XI_OK <;>
    simp [issued, publishedBy, hact, hok]

/-- Witness of C13: an acquiring node with handle 1 and a tick on which the
frame request returns `XI_OK`: one request, one publication. -/
theorem capture_tick_publishes_iff_ok_witness :
    (acquiring xiApiValues (sampleBackend 0 1000 900 256 512) 1).is_active_ = true ∧
    issued (acquiring xiApiValues (sampleBackend 0 1000 900 256 512) 1)
        (frameCaptureCb xiApiValues (sampleConfig "XI_RGB24" 0 0 2048 1088 0)
          ⟨0, 2048, 1088, 7⟩ (acquiring xiApiValues (sampleBackend 0 1000 900 256 512) 1))
      = [(Call.xiGetImage 1 (-1), 0)] ∧
    ∃ p, publishedBy (acquiring xiApiValues (sampleBackend 0 1000 900 256 512) 1)
        (frameCaptureCb xiApiValues (sampleConfig "XI_RGB24" 0 0 2048 1088 0)
          ⟨0, 2048, 1088, 7⟩ (acquiring xiApiValues (sampleBackend 0 1000 900 256 512) 1))
        = [p] ∧
      p.img_width = 640 ∧ p.img_height = 512 ∧ p.info_width = 640 ∧ p.info_height = 512 :=
  have h := capture_tick_publishes_iff_ok xiApiValues (sampleConfig "XI_RGB24" 0 0 2048 1088 0)
    ⟨0, 2048, 1088, 7⟩ (acquiring xiApiValues (sampleBackend 0 1000 900 256 512) 1)
  ⟨rfl, h.1.trans (by decide), h.2.2.1 rfl rfl⟩

/-! ## Order of the calls of openCam -/

/-- A block of calls of one step, put before calls of that step or later ones
that are in step order, gives calls in step order. -/
theorem step_order_block (k : Nat) (l rest : List Call) (hl : ∀ c ∈ l, c.step = k)
    (hrest : List.Pairwise (fun c d : Call => c.step ≤ d.step) rest)
    (hge : ∀ d ∈ rest, k ≤ d.step) :
    List.Pairwise (fun c d : Call => c.step ≤ d.step) (l ++ rest) ∧
      ∀ d ∈ l ++ rest, k ≤ d.step := by
  constructor
  · rw [List.pairwise_append]
    refine ⟨?_, hrest, ?_⟩
    · apply List.pairwise_of_forall_mem_list
      intro c hc d hd
      rw [hl c hc, hl d hd]
    · intro c hc d hd
      rw [hl c hc]
      exact hge d hd
  · intro d hd
    rcases List.mem_append.1 hd with h | h
    · rw [hl d h]
    · exact hge d h

theorem openCamCalls_step_order (K : XiApi) (cfg : Config) (b : Backend) (h : Nat)
    (hroi : roiRejected cfg = false) :
    List.Pairwise (fun c d : Call => c.step ≤ d.step) (openCamCalls K cfg b h) := by
  have h9 := step_order_block 9 [Call.xiStartAcquisition h] [] (by simp [Call.step])
    List.Pairwise.nil (by simp)
  rw [List.append_nil] at h9
  have h8 := step_order_block 8 (bufferCalls b h) _ (step_bufferCalls b h) h9.1
    (fun d hd => le_trans (by norm_num) (h9.2 d hd))
  have h7 := step_order_block 7 (framerateCalls K cfg h) _ (step_framerateCalls K cfg h) h8.1
    (fun d hd => le_trans (by norm_num) (h8.2 d hd))
  have h6 := step_order_block 6 (bandwidthCalls K cfg b h) _ (step_bandwidthCalls K cfg b h)
    h7.1 (fun d hd => le_trans (by norm_num) (h7.2 d hd))
  have h5 := step_order_block 5 (roiCalls cfg h) _ (step_roiCalls cfg h) h6.1
    (fun d hd => le_trans (by norm_num) (h6.2 d hd))
  have h4 := step_order_block 4 (exposureCalls cfg h) _ (step_exposureCalls cfg h) h5.1
    (fun d hd => le_trans (by norm_num) (h5.2 d hd))
  have h3 := step_order_block 3 (triggerCalls K cfg h) _ (step_triggerCalls K cfg h) h4.1
    (fun d hd => le_trans (by norm_num) (h4.2 d hd))
  have h2 := step_order_block 2 (whiteBalanceCalls cfg h) _ (step_whiteBalanceCalls cfg h) h3.1
    (fun d hd => le_trans (by norm_num) (h3.2 d hd))
  have h1 := step_order_block 1
    [Call.xiSetParamInt h .XI_PRM_IMAGE_DATA_FORMAT cfg.cam_format_int_] _
    (by simp [Call.step, Param.step]) h2.1 (fun d hd => le_trans (by norm_num) (h2.2 d hd))
  have := h1.1
  simpa [openCamCalls, configCalls, acquisitionCalls, hroi, List.append_assoc] using this

/-- C14: for every configuration that passes the ROI check and every non-null
handle, the calls `openCam` issues are, in this order: the pixel format write,
white-balance writes (step 2), trigger writes (step 3), exposure writes
(step 4), the ROI writes width, height, x-offset, y-offset, the read of the
available bandwidth followed by the writes of the limit and of the limiting
mode, the reads of the minimum and maximum frame rate followed by timing writes
(step 7), the queue and transport buffer calls (step 8), and last the
start-acquisition call; the whole sequence is in step order. -/
theorem openCam_call_order (K : XiApi) (cfg : Config) (b : Backend) (s : State)
    (hh : s.xi_h_ ≠ 0) (hroi : roiRejected cfg = false) :
    (∃ (wb trg exp tim buf : List Call) (limit : Int),
      callsOf (issued s (openCam K cfg b s))
        = [Call.xiSetParamInt s.xi_h_ .XI_PRM_IMAGE_DATA_FORMAT cfg.cam_format_int_]
          ++ wb ++ trg ++ exp
          ++ [Call.xiSetParamInt s.xi_h_ .XI_PRM_WIDTH cfg.cam_roi_width_,
              Call.xiSetParamInt s.xi_h_ .XI_PRM_HEIGHT cfg.cam_roi_height_,
              Call.xiSetParamInt s.xi_h_ .XI_PRM_OFFSET_X cfg.cam_roi_left_,
              Call.xiSetParamInt s.xi_h_ .XI_PRM_OFFSET_Y cfg.cam_roi_top_]
          ++ [Call.xiGetParamInt s.xi_h_ .XI_PRM_AVAILABLE_BANDWIDTH,
              Call.xiSetParamInt s.xi_h_ .XI_PRM_LIMIT_BANDWIDTH limit,
              Call.xiSetParamInt s.xi_h_ .XI_PRM_LIMIT_BANDWIDTH_MODE K.XI_ON]
          ++ [Call.xiGetParamFloat s.xi_h_ .XI_PRM_FRAMERATE_INFO_MIN,
              Call.xiGetParamFloat s.xi_h_ .XI_PRM_FRAMERATE_INFO_MAX]
          ++ tim ++ buf
          ++ [Call.xiStartAcquisition s.xi_h_] ∧
      (∀ c ∈ wb, c.step = 2) ∧ (∀ c ∈ trg, c.step = 3) ∧ (∀ c ∈ exp, c.step = 4) ∧
      (∀ c ∈ tim, c.step = 7 ∧ ∃ prm v, c = Call.xiSetParamInt s.xi_h_ prm v) ∧
      (∀ c ∈ buf, c.step = 8)) ∧
    List.Pairwise (fun c d : Call => c.step ≤ d.step) (callsOf (issued s (openCam K cfg b s))) ∧
    (callsOf (issued s (openCam K cfg b s))).getLast?
      = some (Call.xiStartAcquisition s.xi_h_) := by
  rw [issued_openCam K cfg b s hh, callsOf_logOf]
  refine ⟨⟨whiteBalanceCalls cfg s.xi_h_, triggerCalls K cfg s.xi_h_, exposureCalls cfg s.xi_h_,
    (if cfg.cam_trigger_mode_ = 0 then
      if cfg.cam_framerate_control_ = true then
        [.xiSetParamInt s.xi_h_ .XI_PRM_ACQ_TIMING_MODE K.XI_ACQ_TIMING_MODE_FRAME_RATE,
         .xiSetParamInt s.xi_h_ .XI_PRM_FRAMERATE cfg.cam_framerate_set_]
      else [.xiSetParamInt s.xi_h_ .XI_PRM_ACQ_TIMING_MODE K.XI_ACQ_TIMING_MODE_FREE_RUN]
     else []),
    bufferCalls b s.xi_h_,
    bandwidthLimit
      (perCameraBandwidth cfg.cam_num_in_bus_ (readInt b s.xi_h_ .XI_PRM_AVAILABLE_BANDWIDTH 0))
      cfg.cam_bw_safetyratio_,
    ?_, step_whiteBalanceCalls cfg s.xi_h_,
    step_triggerCalls K cfg s.xi_h_, step_exposureCalls cfg s.xi_h_, ?_,
    step_bufferCalls b s.xi_h_⟩, openCamCalls_step_order K cfg b s.xi_h_ hroi, ?_⟩
  · simp [openCamCalls, configCalls, acquisitionCalls, roiCalls, bandwidthCalls, framerateCalls,
      hroi, List.append_assoc]
  · intro c hc
    split_ifs at hc <;> simp at hc
    · rcases hc with rfl | rfl <;> exact ⟨rfl, _, _, rfl⟩
    · subst hc
      exact ⟨rfl, _, _, rfl⟩
  · simp [openCamCalls, acquisitionCalls, hroi, ← List.append_assoc]

/-- Witness of C14: the sample configuration with a full-frame ROI on camera
model 0 and handle 1. -/
theorem openCam_call_order_witness :
    (attached xiApiValues (sampleBackend 0 1000 900 256 512) 1).xi_h_ ≠ 0 ∧
    roiRejected (sampleConfig "XI_MONO8" 0 0 2048 1088 0) = false ∧
    List.Pairwise (fun c d : Call => c.step ≤ d.step)
      (callsOf (issued (attached xiApiValues (sampleBackend 0 1000 900 256 512) 1)
        (openCam xiApiValues (sampleConfig "XI_MONO8" 0 0 2048 1088 0)
          (sampleBackend 0 1000 900 256 512)
          (attached xiApiValues (sampleBackend 0 1000 900 256 512) 1)))) ∧
    (callsOf (issued (attached xiApiValues (sampleBackend 0 1000 900 256 512) 1)
        (openCam xiApiValues (sampleConfig "XI_MONO8" 0 0 2048 1088 0)
          (sampleBackend 0 1000 900 256 512)
          (attached xiApiValues (sampleBackend 0 1000 900 256 512) 1)))).getLast?
      = some (Call.xiStartAcquisition 1) :=
  have h := openCam_call_order xiApiValues (sampleConfig "XI_MONO8" 0 0 2048 1088 0)
    (sampleBackend 0 1000 900 256 512) (attached xiApiValues (sampleBackend 0 1000 900 256 512) 1)
    (by decide) (by decide)
  ⟨by decide, by decide, h.2.1, h.2.2⟩

/-! ## Wrapper of the raw buffer -/

/-- The matrix that `frameCaptureCb` wraps around the raw buffer has 3 bytes per
pixel for every configuration and every frame. -/
theorem wrapper_elem_bytes (K : XiApi) (cfg : Config) (a : ImageAnswer) (s : State) :
    ∀ p ∈ publishedBy s (frameCaptureCb K cfg a s), p.mat_elem_bytes = 3 := by
  unfold frameCaptureCb
  cases hact : s.is_active_ <;> by_cases hok : a.stat = K.XI_OK <;>
    simp [publishedBy, hact, hok]

/-- Among the seven formats of the table, the bytes per pixel `initCam` derives
are 3, the value the wrapper assumes, only for `XI_RGB24` and
`XI_RGB_PLANAR`. -/
theorem bytesperpixel_eq_three_iff (K : XiApi) (p : Params) (cam_model_ : Int)
    (hfmt : p.cam_format_ ∈ (ImgFormatMap K).map Prod.fst) :
    (initCam K p cam_model_).cam_bytesperpixel_ = 3
      ↔ (p.cam_format_ = "XI_RGB24" ∨ p.cam_format_ = "XI_RGB_PLANAR") := by
  simp only [ImgFormatMap, List.map_cons, List.map_nil, List.mem_cons, List.mem_singleton,
    List.not_mem_nil, or_false] at hfmt
  rcases hfmt with h | h | h | h | h | h | h <;>
    simp only [initCam, h] <;> decide

/-- C15 at the format `XI_MONO8` (1 byte per pixel in `BytesPerPixelMap`): on a
successful capture of a 2048 by 1088 frame by an acquiring node,
`frameCaptureCb` wraps the raw buffer in a matrix of type `CV_8UC3`, 3 bytes
per pixel, so the wrapper spans `1088 * 2048 * 3 = 6684672` bytes while the
frame of the configured format has `1088 * 2048 * 1 = 2228224` bytes; the image
published is labelled with the encoding `mono8` of the format. -/
theorem mono8_wrapper_spans_three_bytes_per_pixel :
    (sampleConfig "XI_MONO8" 0 0 2048 1088 0).cam_bytesperpixel_ = 1 ∧
    ∃ p : Publication,
      publishedBy (acquiring xiApiValues (sampleBackend 0 1000 900 256 512) 1)
          (frameCaptureCb xiApiValues (sampleConfig "XI_MONO8" 0 0 2048 1088 0)
            ⟨0, 2048, 1088, 7⟩ (acquiring xiApiValues (sampleBackend 0 1000 900 256 512) 1))
        = [p] ∧
      p.encoding = "mono8" ∧
      p.mat_elem_bytes = 3 ∧
      p.mat_elem_bytes ≠ (sampleConfig "XI_MONO8" 0 0 2048 1088 0).cam_bytesperpixel_ ∧
      p.mat_rows * p.mat_cols * p.mat_elem_bytes = 6684672 ∧
      p.mat_rows * p.mat_cols * (sampleConfig "XI_MONO8" 0 0 2048 1088 0).cam_bytesperpixel_
        = 2228224 := by
  refine ⟨by decide, _, rfl, ?_, rfl, ?_, ?_, ?_⟩ <;> decide

/-! ## Guarded division and remainder -/

theorem Flt.ofInt_m_ne_zero (p : Nat) (n : Int) (hp : 0 < p) (hn : n ≠ 0) :
    (Flt.ofInt p n).m ≠ 0 := by
  have habs : n.natAbs ≠ 0 := Int.natAbs_ne_zero.2 hn
  have hb := two_pow_bitLength_le n.natAbs habs
  have hsh : 2 ^ (bitLength (n.natAbs / 1) - p) ≤ n.natAbs := by
    rw [Nat.div_one]
    exact le_trans (Nat.pow_le_pow_right (by norm_num) (by omega)) hb
  have hr : 1 ≤ roundHalfEven n.natAbs (1 * 2 ^ (bitLength (n.natAbs / 1) - p)) :=
    roundHalfEven_ge _ _ 1 (by positivity) (by simpa using hsh)
  simp only [Flt.ofInt, Flt.round, roundQuot]
  intro h
  rcases mul_eq_zero.1 h with h | h
  · exact hn (Int.sign_eq_zero_iff_zero.1 h)
  · have : roundHalfEven n.natAbs (1 * 2 ^ (bitLength (n.natAbs / 1) - p)) = 0 := by
      exact_mod_cast h
    omega

theorem Checked.bind_ne_undefined {α β : Type} (x : Checked α) (f : α → Checked β)
    (e : ArithError) (hx : x ≠ .undefined e) (hf : ∀ v, f v ≠ .undefined e) :
    x.bind f ≠ .undefined e := by
  cases x with
  | ok value => exact hf value
  | undefined e' => simpa [Checked.bind] using hx

theorem addChecked_ne_zeroDivisor (a b : Int) : addChecked a b ≠ .undefined .zeroDivisor := by
  unfold addChecked
  split_ifs <;> simp

theorem subChecked_ne_zeroDivisor (a b : Int) : subChecked a b ≠ .undefined .zeroDivisor := by
  unfold subChecked
  split_ifs <;> simp

theorem remChecked_ne_zeroDivisor (a b : Int) (hb : b ≠ 0) :
    remChecked a b ≠ .undefined .zeroDivisor := by
  unfold remChecked
  rw [if_neg hb]
  split_ifs <;> simp

theorem toInt32Checked_ne_zeroDivisor (x : Flt) :
    x.toInt32Checked ≠ .undefined .zeroDivisor := by
  unfold Flt.toInt32Checked
  split_ifs <;> simp

/-- The remainder of source line 508 is never taken with a zero modulus. -/
theorem transportBufferSizeChecked_ne_zeroDivisor (payload increment minimum : Int) :
    transportBufferSizeChecked payload increment minimum ≠ .undefined .zeroDivisor := by
  unfold transportBufferSizeChecked
  apply Checked.bind_ne_undefined
  · by_cases h0 : increment = 0
    · simp [h0]
    · simp only [ne_eq, h0, not_false_eq_true, if_true]
      apply Checked.bind_ne_undefined
      · exact remChecked_ne_zeroDivisor _ _ h0
      · intro remainder
        by_cases hz : remainder = 0
        · simp [hz]
        · rw [if_pos hz]
          apply Checked.bind_ne_undefined
          · exact subChecked_ne_zeroDivisor _ _
          · intro difference
            exact addChecked_ne_zeroDivisor _ _
  · intro v
    simp

/-- Without overflow the checked size computation is defined and returns the
size of the model. -/
theorem transportBufferSizeChecked_eq (payload increment minimum : Int) (hp : 0 ≤ payload)
    (hi : 0 ≤ increment) (hr : roundedPayload payload increment < 2147483648) :
    transportBufferSizeChecked payload increment minimum
      = .ok (transportBufferSize payload increment minimum) := by
  unfold roundedPayload at hr
  unfold transportBufferSizeChecked transportBufferSize
  by_cases h0 : increment = 0
  · simp [h0, Checked.bind]
  · have hpos : 0 < increment := by omega
    have hrem : remChecked payload increment = .ok (payload % increment) := by
      unfold remChecked
      rw [if_neg h0, if_neg (by omega), Int.tmod_eq_emod hp hi]
    have hlt := Int.emod_lt_of_pos payload hpos
    have hge := Int.emod_nonneg payload h0
    simp only [ne_eq, h0, not_false_eq_true, if_true, hrem, Checked.bind,
      Int.tmod_eq_emod hp hi]
    by_cases hz : payload % increment = 0
    · simp [hz]
    · rw [if_neg (not_or.2 ⟨h0, hz⟩)] at hr
      have hsub : subChecked increment (payload % increment)
          = .ok (increment - payload % increment) := by
        unfold subChecked
        rw [if_pos (by omega)]
      have hadd : addChecked payload (increment - payload % increment)
          = .ok (payload + (increment - payload % increment)) := by
        unfold addChecked
        rw [if_pos (by omega)]
      simp only [hz, not_false_eq_true, if_true, hsub, hadd]
      rw [wrapInt32_eq (increment - payload % increment) (by omega) (by omega),
        wrapInt32_eq (payload + (increment - payload % increment)) (by omega) (by omega)]

/-- C16 (counterexample): the arithmetic of `openCam` is not defined for every
input. With payload 2147483600, default 2147482647 and increment 1000 the
guard of source line 504 holds and the sum of line 510 is 2147484000, outside
the range of `int`; with payload 0, default 2147483647 and increment 1 the sum
of line 504 is outside the range of `int`; with payload -2147483648, default
1 and increment -1 the guard holds and line 508 evaluates `INT_MIN % -1`;
with a per-camera bandwidth 2147483647 and a safety ratio 1 the product of
line 439 is 2147483648 and its conversion to `int` is out of range. -/
theorem guarded_arithmetic_undefined_cases :
    transportBufferWriteChecked 2147483600 2147482647 1000 512 = .undefined .overflow ∧
    transportBufferWriteChecked 0 2147483647 1 0 = .undefined .overflow ∧
    transportBufferWriteChecked (-2147483648) 1 (-1) 512 = .undefined .remainderOverflow ∧
    bandwidthProduct 2147483647 ⟨1, 0⟩ = 2147483648 ∧
    bandwidthLimitChecked 2147483647 ⟨1, 0⟩ = .undefined .castOutOfRange := by
  refine ⟨by decide, by decide, by decide, by decide, by decide⟩

/-- C16 (amended): for every value of `cam_num_in_bus_` (zero, negative values
and the default -1 included) and every available bandwidth, the bandwidth
division is never performed with a zero divisor, and the available bandwidth
is left unchanged, with no operation performed, whenever `cam_num_in_bus_ ≤ 1`;
for every payload, default, minimum and transport buffer increment (zero
included) the remainder is never evaluated with a zero modulus. The arithmetic
is defined, and returns the values of the model, under these bounds: the
division for an available bandwidth `0 ≤ a < 2^31` and `cam_num_in_bus_ < 2^31`;
the conversion of the bandwidth limit when the per-camera bandwidth and the
safety ratio are nonnegative and the truncated single-precision product is
below `2^31`; the transport buffer computation for `payload ≥ 0`,
`increment ≥ 0`, `default + increment` within the range of `int` and the
rounded payload below `2^31`. -/
theorem guarded_arithmetic_never_divides_by_zero :
    (∀ cam_num_in_bus_ avail_bw : Int,
      perCameraBandwidthChecked cam_num_in_bus_ avail_bw ≠ .undefined .zeroDivisor) ∧
    (∀ cam_num_in_bus_ avail_bw : Int, cam_num_in_bus_ ≤ 1 →
      perCameraBandwidthChecked cam_num_in_bus_ avail_bw = .ok avail_bw ∧
      perCameraBandwidth cam_num_in_bus_ avail_bw = avail_bw) ∧
    (∀ payload default increment minimum : Int,
      transportBufferWriteChecked payload default increment minimum
        ≠ .undefined .zeroDivisor) ∧
    (∀ cam_num_in_bus_ avail_bw : Int, 0 ≤ avail_bw → avail_bw < 2 ^ 31 →
      cam_num_in_bus_ < 2 ^ 31 →
      perCameraBandwidthChecked cam_num_in_bus_ avail_bw
        = .ok (perCameraBandwidth cam_num_in_bus_ avail_bw)) ∧
    (∀ (avail_bw : Int) (cam_bw_safetyratio_ : Flt), 0 ≤ avail_bw →
      0 ≤ cam_bw_safetyratio_.m →
      bandwidthProduct avail_bw cam_bw_safetyratio_ < 2147483648 →
      bandwidthLimitChecked avail_bw cam_bw_safetyratio_
        = .ok (bandwidthLimit avail_bw cam_bw_safetyratio_)) ∧
    (∀ payload default increment minimum : Int, 0 ≤ payload → 0 ≤ increment →
      -2147483648 ≤ default + increment → default + increment < 2147483648 →
      roundedPayload payload increment < 2147483648 →
      transportBufferWriteChecked payload default increment minimum
        = .ok (transportBufferWrite payload default increment minimum)) := by
  refine ⟨?_, ?_, ?_, ?_, ?_, ?_⟩
  · intro n a
    unfold perCameraBandwidthChecked
    split_ifs with h
    · have hm := Flt.ofInt_m_ne_zero 53 n (by norm_num) (by omega)
      unfold Flt.divChecked
      rw [if_neg hm]
      exact toInt32Checked_ne_zeroDivisor _
    · simp
  · intro n a hn
    unfold perCameraBandwidthChecked perCameraBandwidth
    rw [if_neg (by omega), if_neg (by omega)]
    exact ⟨rfl, rfl⟩
  · intro payload default increment minimum
    unfold transportBufferWriteChecked
    apply Checked.bind_ne_undefined
    · exact addChecked_ne_zeroDivisor _ _
    · intro sum
      split_ifs
      · apply Checked.bind_ne_undefined
        · exact transportBufferSizeChecked_ne_zeroDivisor _ _ _
        · intro v
          simp
      · simp
  · intro n a ha ha' hn'
    unfold perCameraBandwidthChecked perCameraBandwidth
    split_ifs with h
    · have hm := Flt.ofInt_m_ne_zero 53 n (by norm_num) (by omega)
      have hq := double_quotient_toInt n a ha ha' h hn'
      have h0 : 0 ≤ a / n := Int.ediv_nonneg ha (by omega)
      have hle : a / n ≤ a := Int.ediv_le_self n ha
      unfold Flt.divChecked
      rw [if_neg hm]
      simp only [Checked.bind]
      unfold Flt.toInt32Checked Flt.toInt32
      rw [if_pos (by rw [hq]; omega), if_pos (by rw [hq]; omega)]
    · rfl
  · intro a r ha hr hlt
    have h0 := bandwidthProduct_nonneg a r ha hr
    unfold bandwidthProduct at h0 hlt
    unfold bandwidthLimitChecked bandwidthLimit Flt.toInt32Checked Flt.toInt32
    rw [if_pos ⟨by omega, hlt⟩, if_pos ⟨by omega, hlt⟩]
  · intro payload default increment minimum hp hi hlo hhi hr
    unfold transportBufferWriteChecked transportBufferWrite
    have hadd : addChecked default increment = .ok (default + increment) := by
      unfold addChecked
      rw [if_pos ⟨hlo, hhi⟩]
    rw [hadd, wrapInt32_eq _ hlo hhi]
    simp only [Checked.bind]
    split_ifs with h
    · rw [transportBufferSizeChecked_eq payload increment minimum hp hi hr]
    · rfl

/-- Witness of C16 (amended): the default `cam_num_in_bus_ = -1` leaves the
available bandwidth 5000 unchanged, two cameras share it as 2500 each, the
limit for ratio 0.5 is defined, and payload 1000 with default 900, increment
300 and minimum 512 is defined and writes 1200. -/
theorem guarded_arithmetic_never_divides_by_zero_witness :
    perCameraBandwidthChecked (-1) 5000 = .ok 5000 ∧
    perCameraBandwidthChecked 2 5000 = .ok 2500 ∧
    bandwidthLimitChecked 2500 ⟨1, -1⟩ = .ok 1250 ∧
    transportBufferWriteChecked 1000 900 300 512 = .ok (some 1200) :=
  have h := guarded_arithmetic_never_divides_by_zero
  ⟨(h.2.1 (-1) 5000 (by decide)).1,
   (h.2.2.2.1 2 5000 (by decide) (by decide) (by decide)).trans (by decide),
   (h.2.2.2.2.1 2500 ⟨1, -1⟩ (by decide) (by decide) (by decide)).trans (by decide),
   (h.2.2.2.2.2 1000 900 300 512 (by decide) (by decide) (by decide) (by decide)
      (by decide)).trans (by decide)⟩

end XimeaROSCam
